import Mathlib

/-!
Verification development for the `gitpull` tool (shallow embedding of
`src/gitpull/core.py` and `src/gitpull/cli.py`).

Strings are modelled as Lean `String`s (lists of characters); Python string
operations (`rstrip`, `strip`, `endswith`, slicing, `os.path.join`,
`os.path.dirname`) are re-implemented faithfully below.  Python exceptions
are modelled by the `PyErr` type (`ValueError`, `RuntimeError`,
`FileNotFoundError`); fallible functions return `Except PyErr α`.

Network interaction is abstracted by an outcome value (`UrlOutcome`)
standing for the result of `urllib.request.urlopen` + JSON decoding: a
successful payload, an `HTTPError` with a status code, or a `URLError`.
The error-classification code of each function is translated verbatim.

The CLI driver (`main` of `cli.py`) is modelled as a pure function from its
inputs (arguments, remote responses, on-disk state, interactive input) to a
`RunResult` holding the run outcome, the ordered trace of effects performed,
and the values of the two state records (origin record `.gitpull`,
last-commit record `.gitpull.version`) before and after the run.
-/

set_option maxHeartbeats 1000000

deriving instance DecidableEq for Except

namespace GitPull

/-- Python whitespace test for `str.strip()` (ASCII whitespace; the inputs
handled by gitpull are ASCII). -/
def isPySpace (c : Char) : Bool :=
  c == ' ' || c == '\t' || c == '\n' || c == '\r' || c == '\x0b' || c == '\x0c'

/-- `str.strip()` on the character list. -/
def pyStripList (l : List Char) : List Char :=
  ((l.dropWhile isPySpace).reverse.dropWhile isPySpace).reverse

/-- Python `s.strip()`. -/
def pyStrip (s : String) : String :=
  String.mk (pyStripList s.data)

/-- Python `s.rstrip('/')`. -/
def rstripSlashes (l : List Char) : List Char :=
  (l.reverse.dropWhile (fun c => c == '/')).reverse

/-- Python `arg[:-4] if arg.endswith('.git') else arg`. -/
def stripDotGit (l : List Char) : List Char :=
  if ".git".data.isSuffixOf l then l.take (l.length - 4) else l

/-- Split a character list on `'/'` (like Python `str.split('/')`):
always returns a non-empty list of (possibly empty) slash-free segments. -/
def splitOnSlash : List Char → List (List Char)
  | [] => [[]]
  | c :: rest =>
    if c = '/' then [] :: splitOnSlash rest
    else
      match splitOnSlash rest with
      | [] => [[c]]
      | h :: t => (c :: h) :: t

/-- Strip a literal prefix, returning the remainder on success. -/
def stripPrefixL : List Char → List Char → Option (List Char)
  | [], l => some l
  | _ :: _, [] => none
  | a :: p, b :: l => if a = b then stripPrefixL p l else none

/-- Python exception values raised by the embedded code. -/
inductive PyErr
  | valueError (msg : String)
  | runtimeError (msg : String)
  | fileNotFound (msg : String)
deriving DecidableEq

/-- Does this result stand for a raised `InvalidReference` (`ValueError`)? -/
def isInvalidRef {α : Type} : Except PyErr α → Bool
  | .error (.valueError _) => true
  | _ => false

/-- Regex fragment `([^/]+)/([^/]+)$`: the input must consist of exactly two
non-empty slash-free segments separated by one `'/'`. -/
def matchTwoSegs (l : List Char) : Option (String × String) :=
  match splitOnSlash l with
  | [x, y] => if x = [] ∨ y = [] then none else some (String.mk x, String.mk y)
  | _ => none

/-- One anchored pattern of `parse_repo_arg`: a literal prefix followed by
`([^/]+)/([^/]+)$`. -/
def tryPattern (pre : List Char) (l : List Char) : Option (String × String) :=
  match stripPrefixL pre l with
  | some rest => matchTwoSegs rest
  | none => none

/-- The pattern cascade of `parse_repo_arg`, first match wins:
`https?://github\.com/([^/]+)/([^/]+)$`, then `github\.com/([^/]+)/([^/]+)$`,
then `([^/]+)/([^/]+)$`. -/
def matchPatterns (l : List Char) : Option (String × String) :=
  match tryPattern "https://github.com/".data l with
  | some p => some p
  | none =>
  match tryPattern "http://github.com/".data l with
  | some p => some p
  | none =>
  match tryPattern "github.com/".data l with
  | some p => some p
  | none => matchTwoSegs l

/-- `core.parse_repo_arg`: strip trailing slashes and a `.git` suffix, then
try the three anchored patterns; raise `ValueError` when none matches. -/
def parse_repo_arg (arg : String) : Except PyErr (String × String) :=
  let a := stripDotGit (rstripSlashes arg.data)
  match matchPatterns a with
  | some p => .ok p
  | none =>
    .error (.valueError ("Could not parse repository: " ++ String.mk a ++
      "\nExpected format: owner/repo, github.com/owner/repo, or https://github.com/owner/repo"))

/-- Regex fragment `([^/]+?)(?:\.git)?$` applied to a non-empty slash-free
segment: the lazy group takes the segment minus one `.git` suffix when the
segment ends in `.git` and the residue is non-empty, else the whole segment. -/
def lazySegGit (y : List Char) : Option (List Char) :=
  if y = [] then none
  else if ".git".data.isSuffixOf y ∧ 4 < y.length then some (y.take (y.length - 4))
  else some y

/-- Regex fragment `([^/]+)/([^/]+?)(?:\.git)?$` of `parse_github_url`. -/
def matchOwnerRepoGit (l : List Char) : Option (String × String) :=
  match splitOnSlash l with
  | [x, y] =>
    if x = [] then none
    else
      match lazySegGit y with
      | some n => some (String.mk x, String.mk n)
      | none => none
  | _ => none

/-- `core.parse_github_url`: the HTTPS pattern
`https?://github\.com/([^/]+)/([^/]+?)(?:\.git)?$`, then the SSH pattern
`git@github\.com:([^/]+)/([^/]+?)(?:\.git)?$`; `ValueError` otherwise. -/
def parse_github_url (url : String) : Except PyErr (String × String) :=
  let l := url.data
  let httpsRes :=
    match stripPrefixL "https://github.com/".data l with
    | some rest => matchOwnerRepoGit rest
    | none =>
      match stripPrefixL "http://github.com/".data l with
      | some rest => matchOwnerRepoGit rest
      | none => none
  match httpsRes with
  | some p => .ok p
  | none =>
    match stripPrefixL "git@github.com:".data l with
    | some rest =>
      match matchOwnerRepoGit rest with
      | some p => .ok p
      | none => .error (.valueError ("Could not parse GitHub URL: " ++ url))
    | none => .error (.valueError ("Could not parse GitHub URL: " ++ url))

/-! ## Sync state store (`core.read_gitpull_file` / `core.write_gitpull_file`,
`core.read_version_file` / `core.write_version_file`)

The filesystem is modelled as a partial map from paths to file contents. -/

def GITPULL_FILE : String := ".gitpull"

def VERSION_FILE : String := ".gitpull.version"

/-- `os.path.join(a, b)` for POSIX paths. -/
def pyJoin (a b : String) : String :=
  if b.data.head? = some '/' then b
  else if a.data = [] then b
  else if a.data.getLast? = some '/' then String.mk (a.data ++ b.data)
  else String.mk (a.data ++ '/' :: b.data)

/-- The prefix of `p` up to and including the last `'/'` (`p[:i]` with
`i = p.rfind('/') + 1` in `posixpath.dirname`). -/
def pyDirnameHead (l : List Char) : List Char :=
  (l.reverse.dropWhile (fun c => !(c == '/'))).reverse

/-- `os.path.dirname` for POSIX paths. -/
def pyDirname (p : String) : String :=
  let head := pyDirnameHead p.data
  if head = [] then ""
  else if head.all (fun c => c == '/') then String.mk head
  else String.mk (head.reverse.dropWhile (fun c => c == '/')).reverse

/-- An in-memory filesystem: path to file contents. -/
def Fs : Type := String → Option String

/-- Overwrite one file. -/
def fsUpdate (fs : Fs) (path content : String) : Fs :=
  fun p => if p = path then some content else fs p

/-- `core.write_gitpull_file`: write `url + '\n'` to `dir/.gitpull`. -/
def write_gitpull_file (url : String) (dir : String) (fs : Fs) : Fs :=
  fsUpdate fs (pyJoin dir GITPULL_FILE) (url ++ "\n")

/-- `core.read_gitpull_file`: `None` when the file is absent, else the
stripped contents, `None` when the stripped contents are empty. -/
def read_gitpull_file (dir : String) (fs : Fs) : Option String :=
  match fs (pyJoin dir GITPULL_FILE) with
  | none => none
  | some c =>
    let u := pyStrip c
    if u = "" then none else some u

/-- `core.write_version_file`: write `sha + '\n'` to `dir/.gitpull.version`. -/
def write_version_file (sha : String) (dir : String) (fs : Fs) : Fs :=
  fsUpdate fs (pyJoin dir VERSION_FILE) (sha ++ "\n")

/-- `core.read_version_file`: same reading discipline as the origin record. -/
def read_version_file (dir : String) (fs : Fs) : Option String :=
  match fs (pyJoin dir VERSION_FILE) with
  | none => none
  | some c =>
    let u := pyStrip c
    if u = "" then none else some u

/-! ## Remote metadata fetchers (`core.get_default_branch`,
`core.get_branches`, `core.get_latest_commit_sha`) -/

/-- Abstracted result of one `urllib.request.urlopen` call (after JSON
decoding of a successful body): success payload, `HTTPError` with status
code and reason, or `URLError` (transport failure). -/
inductive UrlOutcome (α : Type)
  | success (val : α)
  | httpError (code : Nat) (reason : String)
  | urlError (reason : String)

/-- `core.get_default_branch`: returns the payload (`data['default_branch']`);
404 → `ValueError`, other `HTTPError` → `RuntimeError` carrying the status,
`URLError` → `RuntimeError` with a `Network error` message. -/
def get_default_branch (owner repo : String) (o : UrlOutcome String) :
    Except PyErr String :=
  match o with
  | .success b => .ok b
  | .httpError code reason =>
    if code = 404 then
      .error (.valueError ("Repository " ++ owner ++ "/" ++ repo ++ " not found (or is private)"))
    else
      .error (.runtimeError ("GitHub API error: " ++ toString code ++ " " ++ reason))
  | .urlError reason => .error (.runtimeError ("Network error: " ++ reason))

/-- Pagination loop of `core.get_branches`.  `pageOf n` abstracts the request
for page `n` (each successful payload is the list of branch names on that
page).  `fuel` bounds the number of iterations; `none` models a diverging
loop (every page full), which cannot happen against the real remote. -/
def get_branches_loop (owner repo : String) (pageOf : Nat → UrlOutcome (List String)) :
    Nat → Nat → List String → Option (Except PyErr (List String))
  | 0, _, _ => none
  | fuel + 1, page, acc =>
    match pageOf page with
    | .success data =>
      if data = [] then some (.ok acc)
      else if data.length < 100 then some (.ok (acc ++ data))
      else get_branches_loop owner repo pageOf fuel (page + 1) (acc ++ data)
    | .httpError code reason =>
      if code = 404 then
        some (.error (.valueError ("Repository " ++ owner ++ "/" ++ repo ++ " not found (or is private)")))
      else
        some (.error (.runtimeError ("GitHub API error: " ++ toString code ++ " " ++ reason)))
    | .urlError reason => some (.error (.runtimeError ("Network error: " ++ reason)))

/-- `core.get_branches`, starting at page 1 with an empty accumulator. -/
def get_branches (owner repo : String) (pageOf : Nat → UrlOutcome (List String))
    (fuel : Nat) : Option (Except PyErr (List String)) :=
  get_branches_loop owner repo pageOf fuel 1 []

/-- `core.get_latest_commit_sha`: returns the payload (`data['sha']`);
identical failure classification, with a branch-specific 404 message. -/
def get_latest_commit_sha (owner repo branch : String) (o : UrlOutcome String) :
    Except PyErr String :=
  match o with
  | .success sha => .ok sha
  | .httpError code reason =>
    if code = 404 then
      .error (.valueError ("Branch " ++ branch ++ " not found in " ++ owner ++ "/" ++ repo))
    else
      .error (.runtimeError ("GitHub API error: " ++ toString code ++ " " ++ reason))
  | .urlError reason => .error (.runtimeError ("Network error: " ++ reason))

/-- The three failure kinds of the spec's error taxonomy for the metadata
fetchers. -/
inductive FailureKind
  | notFound
  | remoteError
  | networkError
deriving DecidableEq

/-- The classification callers can compute from a raised error: exception
class (`ValueError` vs `RuntimeError`) plus the fixed message prefix that
separates remote-status errors from transport errors. -/
def errKind : PyErr → FailureKind
  | .valueError _ => .notFound
  | .fileNotFound _ => .notFound
  | .runtimeError m =>
    if "GitHub API error: ".data.isPrefixOf m.data then .remoteError else .networkError

/-! ## Archive materializer (`core.extract_zip`) -/

/-- One archive entry: its name inside the archive and its (decompressed)
content.  `ZipInfo.is_dir()` is `filename.endswith('/')`. -/
structure ZipEntry where
  filename : String
  content : String
deriving DecidableEq

/-- A filesystem effect performed during extraction. -/
inductive FsOp
  | makeDirs (path : String)
  | writeFile (path : String) (content : String)
deriving DecidableEq

/-- The path an `FsOp` touches. -/
def FsOp.path : FsOp → String
  | .makeDirs p => p
  | .writeFile p _ => p

/-- The per-entry loop of `extract_zip`: returns the ordered effects plus
`(extracted_count, skipped_count)`. -/
def extractLoop (root : String) (target : String) : List ZipEntry → List FsOp × Nat × Nat
  | [] => ([], 0, 0)
  | e :: rest =>
    if e.filename = root then extractLoop root target rest
    else if !(root.data.isPrefixOf e.filename.data) then extractLoop root target rest
    else
      let rel := String.mk (e.filename.data.drop root.data.length)
      if rel = "" then extractLoop root target rest
      else if ".git/".data.isPrefixOf rel.data ∨ rel = ".git" then
        let r := extractLoop root target rest
        (r.1, r.2.1, r.2.2 + 1)
      else
        let tpath := pyJoin target rel
        if e.filename.data.getLast? = some '/' then
          let r := extractLoop root target rest
          (.makeDirs tpath :: r.1, r.2.1, r.2.2)
        else
          let parent := pyDirname tpath
          let pre := if parent = "" then [] else [FsOp.makeDirs parent]
          let r := extractLoop root target rest
          (pre ++ .writeFile tpath e.content :: r.1, r.2.1 + 1, r.2.2)

/-- `core.extract_zip`: raise `ValueError "Empty zip archive"` on an empty
entry list (before touching the filesystem); otherwise strip the root folder
(first path segment of the first entry name, plus `'/'`) from every entry and
materialize it, skipping `.git` entries.  Returns the effects performed and
either the error raised or the `(extracted, skipped)` counts. -/
def extract_zip (entries : List ZipEntry) (target : String) :
    List FsOp × Except PyErr (Nat × Nat) :=
  match entries with
  | [] => ([], .error (.valueError "Empty zip archive"))
  | e0 :: _ =>
    let root := String.mk (e0.filename.data.takeWhile (fun c => !(c == '/')) ++ ['/'])
    let r := extractLoop root target entries
    (r.1, .ok (r.2.1, r.2.2))

/-! ## The reconciliation driver (`cli.main`)

The driver is modelled as a pure function over:
  * the parsed command-line arguments (`Args`),
  * the remote's responses (`Remote`) — metadata results and the outcomes
    of the materialization steps (`download_zip`, `extract_zip`,
    `download_via_api`),
  * the pre-run on-disk state of the clone target (`CloneDisk`) and of the
    current directory (`UpdateDisk`) — each field holds the result the
    corresponding read would produce,
  * the interactive input (`UserChoices`) — the result of `select_branch`
    and the raw line typed at the origin prompt.

It returns the run outcome, the ordered trace of effects, and the values of
the origin record and last-commit record of the affected directory before
and after the run (`none` = record absent; values are normalized by the
read discipline, under which an empty record reads as absent). -/

/-- Effects and observable calls performed by one driver run, in order. -/
inductive Event
  | fetchDefaultBranch
  | fetchBranches
  | selectBranch
  | fetchSha (branch : String)
  | promptOrigin
  | makeTargetDir (dir : String)
  | downloadZip (branch : String)
  | downloadZipFailed (branch : String)
  | extractZipOk
  | extractZipFailed
  | apiDownloadOk (branch : String)
  | apiDownloadFailed (branch : String)
  | writeOrigin (url : String)
  | writeVersion (sha : String)
deriving DecidableEq

/-- How a driver run ended: normal return, or `sys.exit code`. -/
inductive Outcome
  | ok
  | exit (code : Nat)
deriving DecidableEq

/-- Command-line arguments relevant to the pull flows (`--version`, `--bump`
and `--init` end before the reconciliation flow starts and are omitted). -/
structure Args where
  repo : Option String
  fallback : Bool
  branch : Option String

/-- Remote responses for one run.  Metadata calls are abstracted to their
results; `downloadZip` failure stands for the `RuntimeError` of
`core.download_zip`, `extractRes` for the outcome of `core.extract_zip`,
`apiRes` for the outcome of `core.download_via_api`. -/
structure Remote where
  defaultBranch : Except PyErr String
  branches : Except PyErr (List String)
  latestSha : String → Except PyErr String
  downloadZip : String → Except PyErr Unit
  extractRes : Except PyErr Unit
  apiRes : Except PyErr Unit

/-- Pre-run state of the clone target directory (clone mode). -/
structure CloneDisk where
  dirExists : Bool
  gitpull : Option String
  version : Option String

/-- Pre-run state of the current directory (update mode). -/
structure UpdateDisk where
  gitpull : Option String
  hasGitDir : Bool
  gitConfigUrl : Except PyErr String
  version : Option String

/-- Interactive input: the branch `select_branch` returns (`none` = quit)
and the raw line typed at the origin prompt (`none` = EOF). -/
structure UserChoices where
  selectBranch : Option String
  promptRepo : Option String

/-- Result of one driver run. -/
structure RunResult where
  outcome : Outcome
  trace : List Event
  gitpullBefore : Option String
  gitpullAfter : Option String
  versionBefore : Option String
  versionAfter : Option String
  resolvedSha : Option String
deriving DecidableEq

/-- Python truthiness on an optional string record: an empty string is
falsy, matching `if previous_sha:` / `if gitpull_url:`. -/
def truthy : Option String → Option String
  | some "" => none
  | x => x

/-- The canonical origin URL written by the driver. -/
def canonicalUrl (owner repo : String) : String :=
  "https://github.com/" ++ owner ++ "/" ++ repo

/-- Branch-outcome of the selection step. -/
inductive BranchOutcome
  | chosen (b : String)
  | aborted
  | failed
deriving DecidableEq

/-- The branch-selection step of `cli.main` (identical in both flows):
`if args.branch and args.branch != '?'` use it directly; otherwise fetch the
branch list, show interactive selection when more than one branch exists,
else use the default branch. -/
def branchChoice (branchArg : Option String) (remote : Remote) (user : UserChoices)
    (defaultBranch : String) : List Event × BranchOutcome :=
  match branchArg with
  | some b =>
    if b ≠ "" ∧ b ≠ "?" then ([], .chosen b)
    else
      match remote.branches with
      | .error _ => ([.fetchBranches], .failed)
      | .ok bs =>
        if bs.length > 1 then
          ([.fetchBranches, .selectBranch],
            match user.selectBranch with
            | none => .aborted
            | some c => .chosen c)
        else ([.fetchBranches], .chosen defaultBranch)
  | none =>
    match remote.branches with
    | .error _ => ([.fetchBranches], .failed)
    | .ok bs =>
      if bs.length > 1 then
        ([.fetchBranches, .selectBranch],
          match user.selectBranch with
          | none => .aborted
          | some c => .chosen c)
      else ([.fetchBranches], .chosen defaultBranch)

/-- The origin record of the clone target as the run reads it: absent when
the target directory does not exist, normalized by read truthiness. -/
def cloneGb (cd : CloneDisk) : Option String :=
  truthy (if cd.dirExists then cd.gitpull else none)

/-- The last-commit record of the clone target as the run reads it
(`read_version_file(target_dir)` is only consulted when the directory
exists, and an empty record reads as absent). -/
def cloneVb (cd : CloneDisk) : Option String :=
  truthy (if cd.dirExists then cd.version else none)

/-- Clone mode of `cli.main` (an explicit repository argument was given). -/
def run_clone (repoArg : String) (args : Args) (remote : Remote) (cd : CloneDisk)
    (user : UserChoices) : RunResult :=
  let gb := cloneGb cd
  let vb := cloneVb cd
  match parse_repo_arg repoArg with
  | .error _ => ⟨.exit 1, [], gb, gb, vb, vb, none⟩
  | .ok (owner, repo) =>
    match remote.defaultBranch with
    | .error _ => ⟨.exit 1, [.fetchDefaultBranch], gb, gb, vb, vb, none⟩
    | .ok db =>
      let bc := branchChoice args.branch remote user db
      match bc.2 with
      | .failed => ⟨.exit 1, .fetchDefaultBranch :: bc.1, gb, gb, vb, vb, none⟩
      | .aborted => ⟨.ok, .fetchDefaultBranch :: bc.1, gb, gb, vb, vb, none⟩
      | .chosen branch =>
        match remote.latestSha branch with
        | .error _ =>
          ⟨.exit 1, .fetchDefaultBranch :: bc.1 ++ [.fetchSha branch], gb, gb, vb, vb, none⟩
        | .ok newSha =>
          let tr1 := .fetchDefaultBranch :: bc.1 ++ [.fetchSha branch]
          if vb = some newSha then
            ⟨.ok, tr1, gb, gb, vb, vb, some newSha⟩
          else
            let tr2 := tr1 ++ (if cd.dirExists then [] else [.makeTargetDir repo])
            if args.fallback then
              match remote.apiRes with
              | .error _ =>
                ⟨.exit 1, tr2 ++ [.apiDownloadFailed branch], gb, gb, vb, vb, some newSha⟩
              | .ok _ =>
                let url := canonicalUrl owner repo
                ⟨.ok, tr2 ++ [.apiDownloadOk branch, .writeOrigin url, .writeVersion newSha],
                  gb, some url, vb, some newSha, some newSha⟩
            else
              match remote.downloadZip branch with
              | .error _ =>
                ⟨.exit 1, tr2 ++ [.downloadZipFailed branch], gb, gb, vb, vb, some newSha⟩
              | .ok _ =>
                match remote.extractRes with
                | .error _ =>
                  ⟨.exit 1, tr2 ++ [.downloadZip branch, .extractZipFailed],
                    gb, gb, vb, vb, some newSha⟩
                | .ok _ =>
                  let url := canonicalUrl owner repo
                  ⟨.ok, tr2 ++ [.downloadZip branch, .extractZipOk, .writeOrigin url,
                      .writeVersion newSha],
                    gb, some url, vb, some newSha, some newSha⟩

/-- Update mode of `cli.main`, after the origin URL has been determined.
`gNow` is the current value of the origin record (it was freshly created when
the run had to prompt), `ev0` the events performed so far. -/
def run_update_rest (args : Args) (remote : Remote) (ud : UpdateDisk)
    (user : UserChoices) (remoteUrl : String) (gNow : Option String)
    (ev0 : List Event) : RunResult :=
  let gb := truthy ud.gitpull
  let vb := truthy ud.version
  match parse_github_url remoteUrl with
  | .error _ => ⟨.exit 1, ev0, gb, gNow, vb, vb, none⟩
  | .ok (_owner, _repo) =>
    match remote.defaultBranch with
    | .error _ => ⟨.exit 1, ev0 ++ [.fetchDefaultBranch], gb, gNow, vb, vb, none⟩
    | .ok db =>
      let bc := branchChoice args.branch remote user db
      match bc.2 with
      | .failed =>
        ⟨.exit 1, ev0 ++ .fetchDefaultBranch :: bc.1, gb, gNow, vb, vb, none⟩
      | .aborted =>
        ⟨.ok, ev0 ++ .fetchDefaultBranch :: bc.1, gb, gNow, vb, vb, none⟩
      | .chosen branch =>
        match remote.latestSha branch with
        | .error _ =>
          ⟨.exit 1, ev0 ++ .fetchDefaultBranch :: bc.1 ++ [.fetchSha branch],
            gb, gNow, vb, vb, none⟩
        | .ok newSha =>
          let tr1 := ev0 ++ .fetchDefaultBranch :: bc.1 ++ [.fetchSha branch]
          if vb = some newSha then
            ⟨.ok, tr1, gb, gNow, vb, vb, some newSha⟩
          else if args.fallback then
            match remote.apiRes with
            | .error _ =>
              ⟨.exit 1, tr1 ++ [.apiDownloadFailed branch], gb, gNow, vb, vb, some newSha⟩
            | .ok _ =>
              ⟨.ok, tr1 ++ [.apiDownloadOk branch, .writeVersion newSha],
                gb, gNow, vb, some newSha, some newSha⟩
          else
            match remote.downloadZip branch with
            | .error _ =>
              ⟨.exit 1, tr1 ++ [.downloadZipFailed branch], gb, gNow, vb, vb, some newSha⟩
            | .ok _ =>
              match remote.extractRes with
              | .error _ =>
                ⟨.exit 1, tr1 ++ [.downloadZip branch, .extractZipFailed],
                  gb, gNow, vb, vb, some newSha⟩
              | .ok _ =>
                ⟨.ok, tr1 ++ [.downloadZip branch, .extractZipOk, .writeVersion newSha],
                  gb, gNow, vb, some newSha, some newSha⟩

/-- Update mode of `cli.main` (no repository argument): determine the origin
URL from the `.gitpull` record, else from `.git/config`, else prompt for it
(writing the new origin record immediately), then reconcile. -/
def run_update (args : Args) (remote : Remote) (ud : UpdateDisk)
    (user : UserChoices) : RunResult :=
  let gb := truthy ud.gitpull
  let vb := truthy ud.version
  match truthy ud.gitpull with
  | some u => run_update_rest args remote ud user u gb []
  | none =>
    if ud.hasGitDir then
      match ud.gitConfigUrl with
      | .error _ => ⟨.exit 1, [], gb, gb, vb, vb, none⟩
      | .ok u => run_update_rest args remote ud user u gb []
    else
      match user.promptRepo with
      | none => ⟨.exit 1, [.promptOrigin], gb, gb, vb, vb, none⟩
      | some raw =>
        let inp := pyStrip raw
        if inp = "" then ⟨.exit 1, [.promptOrigin], gb, gb, vb, vb, none⟩
        else
          match parse_repo_arg inp with
          | .error _ => ⟨.exit 1, [.promptOrigin], gb, gb, vb, vb, none⟩
          | .ok (owner, repo) =>
            let url := canonicalUrl owner repo
            run_update_rest args remote ud user url (some url)
              [.promptOrigin, .writeOrigin url]

/-- `cli.main`'s pull flow: clone mode when a (truthy) repository argument
was given, update mode otherwise. -/
def run_main (args : Args) (remote : Remote) (cd : CloneDisk) (ud : UpdateDisk)
    (user : UserChoices) : RunResult :=
  match args.repo with
  | some r => if r = "" then run_update args remote ud user else run_clone r args remote cd user
  | none => run_update args remote ud user

/-- Is this event a materialization step (archive download, extraction, or
per-file API download), whether it succeeded or failed? -/
def Event.isMatEvent : Event → Bool
  | .downloadZip _ => true
  | .downloadZipFailed _ => true
  | .extractZipOk => true
  | .extractZipFailed => true
  | .apiDownloadOk _ => true
  | .apiDownloadFailed _ => true
  | _ => false

/-- Is this event a failed materialization step? -/
def Event.isMatFailure : Event → Bool
  | .downloadZipFailed _ => true
  | .extractZipFailed => true
  | .apiDownloadFailed _ => true
  | _ => false

/-- Is this event a completed materialization (extraction finished, or the
per-file download finished)? -/
def Event.isMatSuccess : Event → Bool
  | .extractZipOk => true
  | .apiDownloadOk _ => true
  | _ => false

/-- Is this event a write of the origin record? -/
def Event.isWriteOrigin : Event → Bool
  | .writeOrigin _ => true
  | _ => false

/-- No materialization step appears in the trace. -/
def noMaterialization (tr : List Event) : Bool :=
  tr.all fun e => !e.isMatEvent

/-- Some materialization step failed in the trace. -/
def matFailed (tr : List Event) : Bool :=
  tr.any Event.isMatFailure

/-- Some materialization step ran to completion in the trace. -/
def matSucceeded (tr : List Event) : Bool :=
  tr.any Event.isMatSuccess

/-! ## Helper lemmas -/

theorem mk_data (s : String) : String.mk s.data = s := by
  cases s
  rfl

theorem ne_empty_of_data_ne_nil {s : String} (h : s.data ≠ []) : s ≠ "" := by
  intro he
  subst he
  exact h rfl

theorem isPrefixOf_append_self (l t : List Char) : l.isPrefixOf (l ++ t) = true := by
  induction l with
  | nil => simp [List.isPrefixOf]
  | cons a as ih => simp [List.isPrefixOf, ih]

theorem dropWhile_head_false {p : Char → Bool} (m : List Char)
    (h : ∀ c, m.head? = some c → p c = false) : m.dropWhile p = m := by
  cases m with
  | nil => rfl
  | cons a t =>
    rw [List.dropWhile_cons, h a rfl]
    simp

theorem pyStripList_append_newline (l : List Char) (hne : l ≠ [])
    (hh : ∀ c, l.head? = some c → isPySpace c = false)
    (hl : ∀ c, l.getLast? = some c → isPySpace c = false) :
    pyStripList (l ++ ['\n']) = l := by
  cases l with
  | nil => exact absurd rfl hne
  | cons a t =>
    have ha : isPySpace a = false := hh a rfl
    have hrev : List.dropWhile isPySpace ((a :: t).reverse) = (a :: t).reverse :=
      dropWhile_head_false _ (by
        intro c hc
        apply hl
        rwa [← List.head?_reverse])
    calc pyStripList ((a :: t) ++ ['\n'])
        = ((List.dropWhile isPySpace ((a :: t) ++ ['\n'])).reverse.dropWhile isPySpace).reverse :=
          rfl
      _ = ((a :: (t ++ ['\n'])).reverse.dropWhile isPySpace).reverse := by
          rw [List.cons_append, List.dropWhile_cons, ha]
          simp
      _ = (('\n' :: (a :: t).reverse).dropWhile isPySpace).reverse := by
          simp
      _ = ((a :: t).reverse.dropWhile isPySpace).reverse := by
          rw [List.dropWhile_cons, if_pos (show isPySpace '\n' = true by decide)]
      _ = a :: t := by rw [hrev, List.reverse_reverse]

/-- Both edge characters of the list are non-whitespace (decidable form). -/
def noEdgeSpace (l : List Char) : Bool :=
  (match l.head? with | none => true | some c => !isPySpace c) &&
  (match l.getLast? with | none => true | some c => !isPySpace c)

theorem dropWhile_eq_nil_of_all {p : Char → Bool} (l : List Char)
    (h : ∀ c ∈ l, p c = true) : l.dropWhile p = [] := by
  induction l with
  | nil => rfl
  | cons a t ih =>
    rw [List.dropWhile_cons, h a (by simp)]
    simp only [if_true]
    exact ih fun c hc => h c (by simp [hc])

theorem pyJoin_eq (d b : String) (hb : b.data.head? ≠ some '/')
    (h1 : d.data ≠ []) (h2 : d.data.getLast? ≠ some '/') :
    pyJoin d b = String.mk (d.data ++ '/' :: b.data) := by
  unfold pyJoin
  rw [if_neg hb, if_neg h1, if_neg h2]

theorem pyDirname_append (pre s : List Char) (hp : pre ≠ [])
    (hl : pre.getLast? ≠ some '/') (hs : ∀ c ∈ s, c ≠ '/') :
    pyDirname (String.mk (pre ++ '/' :: s)) = String.mk pre := by
  obtain ⟨c, hc⟩ : ∃ c, pre.getLast? = some c := by
    cases hpre : pre.getLast? with
    | none => exact absurd (List.getLast?_eq_none_iff.mp hpre) hp
    | some c => exact ⟨c, rfl⟩
  have hcne : c ≠ '/' := fun h => hl (h ▸ hc)
  have hmem : c ∈ pre := List.mem_of_mem_getLast? hc
  have hhead : pyDirnameHead (pre ++ '/' :: s) = pre ++ ['/'] := by
    unfold pyDirnameHead
    rw [show (pre ++ '/' :: s).reverse = s.reverse ++ '/' :: pre.reverse by
      simp [List.reverse_append]]
    rw [List.dropWhile_append, dropWhile_eq_nil_of_all s.reverse (by
      intro x hx
      simp only [List.mem_reverse] at hx
      simp [hs x hx])]
    simp [List.dropWhile_cons]
  unfold pyDirname
  rw [show (String.mk (pre ++ '/' :: s)).data = pre ++ '/' :: s from rfl]
  rw [hhead]
  rw [if_neg (by simp : ¬(pre ++ ['/'] = []))]
  rw [if_neg (by
    intro hall
    rw [List.all_eq_true] at hall
    have := hall c (by simp [hmem])
    simp at this
    exact hcne this)]
  have : (pre ++ ['/']).reverse.dropWhile (fun c => c == '/') = pre.reverse := by
    rw [List.reverse_append]
    simp only [List.reverse_singleton, List.singleton_append, List.dropWhile_cons]
    rw [if_pos (by simp)]
    exact dropWhile_head_false _ (by
      intro x hx
      rw [List.head?_reverse] at hx
      rw [hc] at hx
      cases hx
      simp [hcne])
  rw [this, List.reverse_reverse]

/-! ## Claim theorems -/

/-- Claim C7: extracting an archive that contains zero entries fails with the
`Empty zip archive` `ValueError` and performs no filesystem effect (no file
and no directory is created in the target directory). -/
theorem c7_extract_zip_empty_archive (target : String) :
    extract_zip [] target = ([], .error (.valueError "Empty zip archive")) := rfl

/-- Claim C6 is false as stated: the round-trip is not the identity on every
string.  Writing the origin record `" x"` and reading it back yields
`some "x"` (reading strips surrounding whitespace), and writing `""` reads
back as an absent record. -/
theorem c6_roundtrip_counterexample :
    read_gitpull_file "." (write_gitpull_file " x" "." (fun _ => none)) = some "x" ∧
    read_gitpull_file "." (write_gitpull_file " x" "." (fun _ => none)) ≠ some " x" ∧
    read_gitpull_file "." (write_gitpull_file "" "." (fun _ => none)) = none := by
  refine ⟨by decide, by decide, by decide⟩

/-- Claim C6 (amended): for every non-empty string with no leading or
trailing whitespace — every origin URL in particular — writing the origin
record of a directory and reading it back returns exactly the string
written. -/
theorem c6_roundtrip_amended (s dir : String) (fs : Fs)
    (hne : s ≠ "") (hedge : noEdgeSpace s.data = true) :
    read_gitpull_file dir (write_gitpull_file s dir fs) = some s := by
  have hd : s.data ≠ [] := by
    intro h
    apply hne
    have := congrArg String.mk h
    rwa [mk_data] at this
  have hh : ∀ c, s.data.head? = some c → isPySpace c = false := by
    intro c hc
    unfold noEdgeSpace at hedge
    rw [hc] at hedge
    rw [Bool.and_eq_true] at hedge
    simpa using hedge.1
  have hl : ∀ c, s.data.getLast? = some c → isPySpace c = false := by
    intro c hc
    unfold noEdgeSpace at hedge
    rw [hc] at hedge
    rw [Bool.and_eq_true] at hedge
    simpa using hedge.2
  have hfile : (write_gitpull_file s dir fs) (pyJoin dir GITPULL_FILE) = some (s ++ "\n") := by
    unfold write_gitpull_file fsUpdate
    simp
  have hstrip : pyStrip (s ++ "\n") = s := by
    unfold pyStrip
    rw [String.data_append]
    rw [show ("\n" : String).data = ['\n'] from rfl]
    rw [pyStripList_append_newline s.data hd hh hl, mk_data]
  unfold read_gitpull_file
  rw [hfile]
  simp only [hstrip, if_neg hne]

/-- Witness for the amended C6 round-trip at a concrete origin URL. -/
theorem c6_roundtrip_amended_witness :
    ("https://github.com/o/r" : String) ≠ "" ∧
    noEdgeSpace ("https://github.com/o/r" : String).data = true ∧
    read_gitpull_file "."
      (write_gitpull_file "https://github.com/o/r" "." (fun _ => none)) =
      some "https://github.com/o/r" :=
  ⟨by decide, by decide,
    c6_roundtrip_amended "https://github.com/o/r" "." (fun _ => none) (by decide) (by decide)⟩

theorem errKind_valueError (m : String) : errKind (.valueError m) = .notFound := rfl

theorem errKind_remote (code : Nat) (reason : String) :
    errKind (.runtimeError ("GitHub API error: " ++ toString code ++ " " ++ reason)) =
      .remoteError := by
  simp only [errKind]
  rw [if_pos]
  rw [show ("GitHub API error: " ++ toString code ++ " " ++ reason).data =
      "GitHub API error: ".data ++ ((toString code).data ++ (" ".data ++ reason.data)) by
    simp [String.data_append]]
  exact isPrefixOf_append_self _ _

theorem errKind_network (reason : String) :
    errKind (.runtimeError ("Network error: " ++ reason)) = .networkError := by
  simp only [errKind]
  rw [if_neg]
  rw [show ("Network error: " ++ reason).data = 'N' :: ("etwork error: ".data ++ reason.data) by
    rw [String.data_append]
    rfl]
  simp [List.isPrefixOf]

/-- Claim C5: the three metadata operations classify every failure
identically and into three kinds that are mutually distinguishable from the
raised error alone (`errKind`): HTTP 404 raises the not-found `ValueError`;
any other HTTP status raises a `RuntimeError` whose message carries the
status (`GitHub API error: <code> <reason>`); a transport-level `URLError`
raises a `RuntimeError` with the `Network error:` prefix. -/
theorem c5_metadata_failure_classification
    (owner repo branch reason : String) (code : Nat)
    (pageOf : Nat → UrlOutcome (List String)) (fuel : Nat)
    (hcode : code ≠ 404) :
    (get_default_branch owner repo (.httpError 404 reason) =
        .error (.valueError ("Repository " ++ owner ++ "/" ++ repo ++ " not found (or is private)")) ∧
      get_default_branch owner repo (.httpError code reason) =
        .error (.runtimeError ("GitHub API error: " ++ toString code ++ " " ++ reason)) ∧
      get_default_branch owner repo (.urlError reason) =
        .error (.runtimeError ("Network error: " ++ reason))) ∧
    (get_latest_commit_sha owner repo branch (.httpError 404 reason) =
        .error (.valueError ("Branch " ++ branch ++ " not found in " ++ owner ++ "/" ++ repo)) ∧
      get_latest_commit_sha owner repo branch (.httpError code reason) =
        .error (.runtimeError ("GitHub API error: " ++ toString code ++ " " ++ reason)) ∧
      get_latest_commit_sha owner repo branch (.urlError reason) =
        .error (.runtimeError ("Network error: " ++ reason))) ∧
    ((pageOf 1 = .httpError 404 reason →
        get_branches owner repo pageOf (fuel + 1) =
          some (.error (.valueError ("Repository " ++ owner ++ "/" ++ repo ++ " not found (or is private)")))) ∧
      (pageOf 1 = .httpError code reason →
        get_branches owner repo pageOf (fuel + 1) =
          some (.error (.runtimeError ("GitHub API error: " ++ toString code ++ " " ++ reason)))) ∧
      (pageOf 1 = .urlError reason →
        get_branches owner repo pageOf (fuel + 1) =
          some (.error (.runtimeError ("Network error: " ++ reason))))) ∧
    (errKind (.valueError ("Repository " ++ owner ++ "/" ++ repo ++ " not found (or is private)")) = .notFound ∧
      errKind (.valueError ("Branch " ++ branch ++ " not found in " ++ owner ++ "/" ++ repo)) = .notFound ∧
      errKind (.runtimeError ("GitHub API error: " ++ toString code ++ " " ++ reason)) = .remoteError ∧
      errKind (.runtimeError ("Network error: " ++ reason)) = .networkError) ∧
    (FailureKind.notFound ≠ .remoteError ∧ FailureKind.notFound ≠ .networkError ∧
      FailureKind.remoteError ≠ .networkError) := by
  refine ⟨⟨?_, ?_, ?_⟩, ⟨?_, ?_, ?_⟩, ⟨?_, ?_, ?_⟩, ⟨?_, ?_, ?_, ?_⟩, by decide⟩
  · simp [get_default_branch]
  · simp [get_default_branch, hcode]
  · rfl
  · simp [get_latest_commit_sha]
  · simp [get_latest_commit_sha, hcode]
  · rfl
  · intro h
    simp [get_branches, get_branches_loop, h]
  · intro h
    simp [get_branches, get_branches_loop, h, hcode]
  · intro h
    simp [get_branches, get_branches_loop, h]
  · exact errKind_valueError _
  · exact errKind_valueError _
  · exact errKind_remote _ _
  · exact errKind_network _

/-- Witness for C5 at a concrete non-404 status. -/
theorem c5_metadata_failure_classification_witness :
    (500 : Nat) ≠ 404 ∧
    get_default_branch "o" "r" (.httpError 500 "boom") =
      .error (.runtimeError ("GitHub API error: " ++ toString (500 : Nat) ++ " " ++ "boom")) ∧
    errKind (.runtimeError ("GitHub API error: " ++ toString (500 : Nat) ++ " " ++ "boom")) =
      .remoteError :=
  ⟨by decide,
    (c5_metadata_failure_classification "o" "r" "b" "boom" 500 (fun _ => .urlError "x") 0
      (by decide)).1.2.1,
    (c5_metadata_failure_classification "o" "r" "b" "boom" 500 (fun _ => .urlError "x") 0
      (by decide)).2.2.2.1.2.2.1⟩

/-- Claim C1: extracting the archive whose entries are `demo-main/a.txt`,
`demo-main/sub/b.txt` and `demo-main/.git/config` into a target directory
`d` writes exactly two files, at the relative paths `a.txt` and `sub/b.txt`
(it also ensures their parent directories exist), reports exactly one
skipped entry, and materializes no path whose target-relative name starts
with `.git`. -/
theorem c1_extract_zip_demo_archive (d c1 c2 c3 : String)
    (h1 : d.data ≠ []) (h2 : d.data.getLast? ≠ some '/') :
    extract_zip [⟨"demo-main/a.txt", c1⟩, ⟨"demo-main/sub/b.txt", c2⟩,
        ⟨"demo-main/.git/config", c3⟩] d =
      ([.makeDirs d, .writeFile (pyJoin d "a.txt") c1, .makeDirs (pyJoin d "sub"),
        .writeFile (pyJoin d "sub/b.txt") c2], .ok (2, 1)) ∧
    ∀ op ∈ (extract_zip [⟨"demo-main/a.txt", c1⟩, ⟨"demo-main/sub/b.txt", c2⟩,
        ⟨"demo-main/.git/config", c3⟩] d).1,
      ".git".data.isPrefixOf (op.path.data.drop (d.data.length + 1)) = false := by
  have hdne : d ≠ "" := ne_empty_of_data_ne_nil h1
  have hja : pyJoin d "a.txt" = String.mk (d.data ++ '/' :: "a.txt".data) :=
    pyJoin_eq d "a.txt" (by decide) h1 h2
  have hjs : pyJoin d "sub" = String.mk (d.data ++ '/' :: "sub".data) :=
    pyJoin_eq d "sub" (by decide) h1 h2
  have hjsb : pyJoin d "sub/b.txt" = String.mk (d.data ++ '/' :: "sub/b.txt".data) :=
    pyJoin_eq d "sub/b.txt" (by decide) h1 h2
  have hda : pyDirname (String.mk (d.data ++ '/' :: "a.txt".data)) = d := by
    rw [pyDirname_append d.data "a.txt".data h1 h2 (by decide), mk_data]
  have hdsb : pyDirname (String.mk (d.data ++ '/' :: "sub/b.txt".data)) =
      String.mk (d.data ++ '/' :: "sub".data) := by
    rw [show d.data ++ '/' :: "sub/b.txt".data =
        (d.data ++ '/' :: "sub".data) ++ '/' :: "b.txt".data by simp]
    exact pyDirname_append _ _ (by simp) (by simp) (by decide)
  have hsubne : String.mk (d.data ++ '/' :: "sub".data) ≠ "" :=
    ne_empty_of_data_ne_nil (by simp)
  have hrel : ∀ rel : String, rel.data.head? ≠ some '/' →
      ".git".data.isPrefixOf
        ((String.mk (d.data ++ '/' :: rel.data)).data.drop (d.data.length + 1)) =
        ".git".data.isPrefixOf rel.data := by
    intro rel _
    rw [show (String.mk (d.data ++ '/' :: rel.data)).data = d.data ++ '/' :: rel.data from rfl]
    rw [show d.data ++ '/' :: rel.data = (d.data ++ ['/']) ++ rel.data by simp]
    rw [show d.data.length + 1 = (d.data ++ ['/']).length by simp]
    rw [List.drop_left]
  have hmain : extract_zip [⟨"demo-main/a.txt", c1⟩, ⟨"demo-main/sub/b.txt", c2⟩,
      ⟨"demo-main/.git/config", c3⟩] d =
      ([.makeDirs d, .writeFile (pyJoin d "a.txt") c1, .makeDirs (pyJoin d "sub"),
        .writeFile (pyJoin d "sub/b.txt") c2], .ok (2, 1)) := by
    simp [extract_zip, extractLoop, hja, hjs, hjsb, hda, hdsb, hdne, hsubne]
  refine ⟨hmain, ?_⟩
  intro op hop
  rw [hmain] at hop
  simp only [List.mem_cons, List.not_mem_nil, or_false] at hop
  rcases hop with h | h | h | h <;> subst h
  · show ".git".data.isPrefixOf (d.data.drop (d.data.length + 1)) = false
    rw [List.drop_eq_nil_of_le (by omega)]
    rfl
  · show ".git".data.isPrefixOf ((pyJoin d "a.txt").data.drop (d.data.length + 1)) = false
    rw [hja, hrel "a.txt" (by decide)]
    decide
  · show ".git".data.isPrefixOf ((pyJoin d "sub").data.drop (d.data.length + 1)) = false
    rw [hjs, hrel "sub" (by decide)]
    decide
  · show ".git".data.isPrefixOf ((pyJoin d "sub/b.txt").data.drop (d.data.length + 1)) = false
    rw [hjsb, hrel "sub/b.txt" (by decide)]
    decide

/-- Witness for C1 at a concrete target directory and file contents. -/
theorem c1_extract_zip_demo_archive_witness :
    ("target" : String).data ≠ [] ∧ ("target" : String).data.getLast? ≠ some '/' ∧
    (extract_zip [⟨"demo-main/a.txt", "A"⟩, ⟨"demo-main/sub/b.txt", "B"⟩,
        ⟨"demo-main/.git/config", "C"⟩] "target" =
      ([.makeDirs "target", .writeFile (pyJoin "target" "a.txt") "A",
        .makeDirs (pyJoin "target" "sub"),
        .writeFile (pyJoin "target" "sub/b.txt") "B"], .ok (2, 1)) ∧
      ∀ op ∈ (extract_zip [⟨"demo-main/a.txt", "A"⟩, ⟨"demo-main/sub/b.txt", "B"⟩,
          ⟨"demo-main/.git/config", "C"⟩] "target").1,
        ".git".data.isPrefixOf (op.path.data.drop (("target" : String).data.length + 1)) = false) :=
  ⟨by decide, by decide,
    c1_extract_zip_demo_archive "target" "A" "B" "C" (by decide) (by decide)⟩

theorem branchChoice_shape (br : Option String) (remote : Remote) (user : UserChoices)
    (db : String) :
    (branchChoice br remote user db).1 = [] ∨
    (branchChoice br remote user db).1 = [Event.fetchBranches] ∨
    (branchChoice br remote user db).1 = [Event.fetchBranches, Event.selectBranch] := by
  rcases br with _ | b <;> simp only [branchChoice]
  · split
    · simp
    · split <;> simp
  · split
    · simp
    · split
      · simp
      · split <;> simp

theorem branchChoice_not_mat (br : Option String) (remote : Remote) (user : UserChoices)
    (db : String) : ∀ x ∈ (branchChoice br remote user db).1, x.isMatEvent = false := by
  intro x hx
  rcases branchChoice_shape br remote user db with h | h | h <;> rw [h] at hx <;>
    simp at hx
  · subst hx
    rfl
  · rcases hx with hx | hx <;> subst hx <;> rfl

theorem run_clone_c2 (rep : String) (args : Args) (remote : Remote) (cd : CloneDisk)
    (user : UserChoices) (s : String) :
    (run_clone rep args remote cd user).versionBefore = some s →
    (run_clone rep args remote cd user).resolvedSha = some s →
    noMaterialization (run_clone rep args remote cd user).trace = true ∧
    (run_clone rep args remote cd user).versionAfter =
      (run_clone rep args remote cd user).versionBefore ∧
    ∀ u, (run_clone rep args remote cd user).gitpullBefore = some u →
      (run_clone rep args remote cd user).gitpullAfter = some u := by
  simp only [run_clone]
  split
  · intro h1 h2
    simp at h2
  · split
    · intro h1 h2
      simp at h2
    · rename_i db heqdb
      generalize (branchChoice args.branch remote user db).2 = bo
      cases bo with
      | failed =>
        intro h1 h2
        simp at h2
      | aborted =>
        intro h1 h2
        simp at h2
      | chosen branch =>
        repeat' split
        all_goals intro h1 h2
        all_goals try simp_all [noMaterialization, Event.isMatEvent]
        all_goals exact branchChoice_not_mat args.branch remote user _

theorem run_update_rest_c2 (args : Args) (remote : Remote) (ud : UpdateDisk)
    (user : UserChoices) (url : String) (gNow : Option String) (ev0 : List Event) (s : String)
    (hev0 : ev0.all (fun e => !e.isMatEvent) = true)
    (hg : ∀ u, truthy ud.gitpull = some u → gNow = some u) :
    (run_update_rest args remote ud user url gNow ev0).versionBefore = some s →
    (run_update_rest args remote ud user url gNow ev0).resolvedSha = some s →
    noMaterialization (run_update_rest args remote ud user url gNow ev0).trace = true ∧
    (run_update_rest args remote ud user url gNow ev0).versionAfter =
      (run_update_rest args remote ud user url gNow ev0).versionBefore ∧
    ∀ u, (run_update_rest args remote ud user url gNow ev0).gitpullBefore = some u →
      (run_update_rest args remote ud user url gNow ev0).gitpullAfter = some u := by
  simp only [run_update_rest]
  split
  · intro h1 h2
    simp at h2
  · split
    · intro h1 h2
      simp at h2
    · rename_i db heqdb
      generalize (branchChoice args.branch remote user db).2 = bo
      cases bo with
      | failed =>
        intro h1 h2
        simp at h2
      | aborted =>
        intro h1 h2
        simp at h2
      | chosen branch =>
        repeat' split
        all_goals intro h1 h2
        all_goals try simp_all [noMaterialization, Event.isMatEvent]
        all_goals exact branchChoice_not_mat args.branch remote user _
theorem run_update_c2 (args : Args) (remote : Remote) (ud : UpdateDisk)
    (user : UserChoices) (s : String) :
    (run_update args remote ud user).versionBefore = some s →
    (run_update args remote ud user).resolvedSha = some s →
    noMaterialization (run_update args remote ud user).trace = true ∧
    (run_update args remote ud user).versionAfter =
      (run_update args remote ud user).versionBefore ∧
    ∀ u, (run_update args remote ud user).gitpullBefore = some u →
      (run_update args remote ud user).gitpullAfter = some u := by
  simp only [run_update]
  split
  · exact run_update_rest_c2 args remote ud user _ _ [] s rfl (fun _ h => h)
  · rename_i hgnone
    split
    · split
      · intro h1 h2
        simp at h2
      · exact run_update_rest_c2 args remote ud user _ _ [] s rfl (fun _ h => h)
    · split
      · intro h1 h2
        simp at h2
      · split
        · intro h1 h2
          simp at h2
        · split
          · intro h1 h2
            simp at h2
          · refine run_update_rest_c2 args remote ud user _ _ _ s (by simp [Event.isMatEvent]) ?_
            intro u hu
            rw [hgnone] at hu
            cases hu

/-- Claim C2: whenever the stored last-commit record exists and equals the
freshly resolved commit of the chosen branch, the run performs no
materialization step (no archive download, no extraction, no per-file
download), leaves the last-commit record exactly as it was, and overwrites
no previously stored origin record (any stored origin record keeps its
value). -/
theorem c2_up_to_date_no_effects (args : Args) (remote : Remote) (cd : CloneDisk)
    (ud : UpdateDisk) (user : UserChoices) (s : String) :
    (run_main args remote cd ud user).versionBefore = some s →
    (run_main args remote cd ud user).resolvedSha = some s →
    noMaterialization (run_main args remote cd ud user).trace = true ∧
    (run_main args remote cd ud user).versionAfter =
      (run_main args remote cd ud user).versionBefore ∧
    ∀ u, (run_main args remote cd ud user).gitpullBefore = some u →
      (run_main args remote cd ud user).gitpullAfter = some u := by
  obtain ⟨orep, fb, br⟩ := args
  rcases orep with _ | r
  · simp only [run_main]
    exact run_update_c2 ⟨none, fb, br⟩ remote ud user s
  · by_cases hr : r = ""
    · subst hr
      simp only [run_main, if_true]
      exact run_update_c2 ⟨some "", fb, br⟩ remote ud user s
    · simp only [run_main]
      rw [if_neg hr]
      exact run_clone_c2 r ⟨some r, fb, br⟩ remote cd user s
@[simp] theorem isMatFailure_fetchDefaultBranch : Event.fetchDefaultBranch.isMatFailure = false := rfl
@[simp] theorem isMatFailure_fetchBranches : Event.fetchBranches.isMatFailure = false := rfl
@[simp] theorem isMatFailure_selectBranch : Event.selectBranch.isMatFailure = false := rfl
@[simp] theorem isMatFailure_fetchSha (b : String) : (Event.fetchSha b).isMatFailure = false := rfl
@[simp] theorem isMatFailure_promptOrigin : Event.promptOrigin.isMatFailure = false := rfl
@[simp] theorem isMatFailure_makeTargetDir (d : String) : (Event.makeTargetDir d).isMatFailure = false := rfl
@[simp] theorem isMatFailure_downloadZip (b : String) : (Event.downloadZip b).isMatFailure = false := rfl
@[simp] theorem isMatFailure_downloadZipFailed (b : String) : (Event.downloadZipFailed b).isMatFailure = true := rfl
@[simp] theorem isMatFailure_extractZipOk : Event.extractZipOk.isMatFailure = false := rfl
@[simp] theorem isMatFailure_extractZipFailed : Event.extractZipFailed.isMatFailure = true := rfl
@[simp] theorem isMatFailure_apiDownloadOk (b : String) : (Event.apiDownloadOk b).isMatFailure = false := rfl
@[simp] theorem isMatFailure_apiDownloadFailed (b : String) : (Event.apiDownloadFailed b).isMatFailure = true := rfl
@[simp] theorem isMatFailure_writeOrigin (u : String) : (Event.writeOrigin u).isMatFailure = false := rfl
@[simp] theorem isMatFailure_writeVersion (v : String) : (Event.writeVersion v).isMatFailure = false := rfl

@[simp] theorem isMatSuccess_fetchDefaultBranch : Event.fetchDefaultBranch.isMatSuccess = false := rfl
@[simp] theorem isMatSuccess_fetchBranches : Event.fetchBranches.isMatSuccess = false := rfl
@[simp] theorem isMatSuccess_selectBranch : Event.selectBranch.isMatSuccess = false := rfl
@[simp] theorem isMatSuccess_fetchSha (b : String) : (Event.fetchSha b).isMatSuccess = false := rfl
@[simp] theorem isMatSuccess_promptOrigin : Event.promptOrigin.isMatSuccess = false := rfl
@[simp] theorem isMatSuccess_makeTargetDir (d : String) : (Event.makeTargetDir d).isMatSuccess = false := rfl
@[simp] theorem isMatSuccess_downloadZip (b : String) : (Event.downloadZip b).isMatSuccess = false := rfl
@[simp] theorem isMatSuccess_downloadZipFailed (b : String) : (Event.downloadZipFailed b).isMatSuccess = false := rfl
@[simp] theorem isMatSuccess_extractZipOk : Event.extractZipOk.isMatSuccess = true := rfl
@[simp] theorem isMatSuccess_extractZipFailed : Event.extractZipFailed.isMatSuccess = false := rfl
@[simp] theorem isMatSuccess_apiDownloadOk (b : String) : (Event.apiDownloadOk b).isMatSuccess = true := rfl
@[simp] theorem isMatSuccess_apiDownloadFailed (b : String) : (Event.apiDownloadFailed b).isMatSuccess = false := rfl
@[simp] theorem isMatSuccess_writeOrigin (u : String) : (Event.writeOrigin u).isMatSuccess = false := rfl
@[simp] theorem isMatSuccess_writeVersion (v : String) : (Event.writeVersion v).isMatSuccess = false := rfl

theorem branchChoice_any_false (br : Option String) (remote : Remote) (user : UserChoices)
    (db : String) (p : Event → Bool) (h1 : p .fetchBranches = false)
    (h2 : p .selectBranch = false) :
    (branchChoice br remote user db).1.any p = false := by
  rcases branchChoice_shape br remote user db with h | h | h <;> rw [h] <;> simp [h1, h2]

theorem run_clone_c3 (rep : String) (args : Args) (remote : Remote) (cd : CloneDisk)
    (user : UserChoices) :
    matFailed (run_clone rep args remote cd user).trace = true →
    (run_clone rep args remote cd user).outcome = .exit 1 ∧
    (run_clone rep args remote cd user).versionAfter =
      (run_clone rep args remote cd user).versionBefore ∧
    ∀ u, (run_clone rep args remote cd user).gitpullBefore = some u →
      (run_clone rep args remote cd user).gitpullAfter = some u := by
  simp only [run_clone]
  split
  · intro h
    simp [matFailed] at h
  · split
    · intro h
      simp [matFailed] at h
    · rename_i db heqdb
      generalize (branchChoice args.branch remote user db).2 = bo
      have hbc := branchChoice_any_false args.branch remote user db Event.isMatFailure rfl rfl
      cases bo with
      | failed =>
        intro h
        simp [matFailed, List.any_append, hbc] at h
      | aborted =>
        intro h
        simp [matFailed, List.any_append, hbc] at h
      | chosen branch =>
        repeat' split
        all_goals intro h
        all_goals try exact ⟨rfl, rfl, fun u hu => hu⟩
        all_goals simp [matFailed, List.any_append, hbc] at h
theorem run_update_rest_c3 (args : Args) (remote : Remote) (ud : UpdateDisk)
    (user : UserChoices) (url : String) (gNow : Option String) (ev0 : List Event)
    (hev0 : ev0.any Event.isMatFailure = false)
    (hg : ∀ u, truthy ud.gitpull = some u → gNow = some u) :
    matFailed (run_update_rest args remote ud user url gNow ev0).trace = true →
    (run_update_rest args remote ud user url gNow ev0).outcome = .exit 1 ∧
    (run_update_rest args remote ud user url gNow ev0).versionAfter =
      (run_update_rest args remote ud user url gNow ev0).versionBefore ∧
    ∀ u, (run_update_rest args remote ud user url gNow ev0).gitpullBefore = some u →
      (run_update_rest args remote ud user url gNow ev0).gitpullAfter = some u := by
  simp only [run_update_rest]
  split
  · intro h
    simp [matFailed, hev0] at h
  · split
    · intro h
      simp [matFailed, List.any_append, hev0] at h
    · rename_i db heqdb
      generalize (branchChoice args.branch remote user db).2 = bo
      have hbc := branchChoice_any_false args.branch remote user db Event.isMatFailure rfl rfl
      cases bo with
      | failed =>
        intro h
        simp [matFailed, List.any_append, hbc, hev0] at h
      | aborted =>
        intro h
        simp [matFailed, List.any_append, hbc, hev0] at h
      | chosen branch =>
        repeat' split
        all_goals intro h
        all_goals try exact ⟨rfl, rfl, hg⟩
        all_goals simp [matFailed, List.any_append, hbc, hev0] at h

theorem run_update_c3 (args : Args) (remote : Remote) (ud : UpdateDisk)
    (user : UserChoices) :
    matFailed (run_update args remote ud user).trace = true →
    (run_update args remote ud user).outcome = .exit 1 ∧
    (run_update args remote ud user).versionAfter =
      (run_update args remote ud user).versionBefore ∧
    ∀ u, (run_update args remote ud user).gitpullBefore = some u →
      (run_update args remote ud user).gitpullAfter = some u := by
  simp only [run_update]
  split
  · exact run_update_rest_c3 args remote ud user _ _ [] rfl (fun _ h => h)
  · rename_i hgnone
    split
    · split
      · intro h
        simp [matFailed] at h
      · exact run_update_rest_c3 args remote ud user _ _ [] rfl (fun _ h => h)
    · split
      · intro h
        simp [matFailed] at h
      · split
        · intro h
          simp [matFailed] at h
        · split
          · intro h
            simp [matFailed] at h
          · refine run_update_rest_c3 args remote ud user _ _ _ (by simp) ?_
            intro u hu
            rw [hgnone] at hu
            cases hu

/-- Claim C3: whenever materialization fails (the archive download raises,
the extraction raises, or the per-file API download raises), the run aborts
with exit status 1 before any state record is rewritten: the last-commit
record keeps exactly its previous value and any previously stored origin
record keeps its value. -/
theorem c3_failed_materialization_preserves_state (args : Args) (remote : Remote)
    (cd : CloneDisk) (ud : UpdateDisk) (user : UserChoices) :
    matFailed (run_main args remote cd ud user).trace = true →
    (run_main args remote cd ud user).outcome = .exit 1 ∧
    (run_main args remote cd ud user).versionAfter =
      (run_main args remote cd ud user).versionBefore ∧
    ∀ u, (run_main args remote cd ud user).gitpullBefore = some u →
      (run_main args remote cd ud user).gitpullAfter = some u := by
  obtain ⟨orep, fb, br⟩ := args
  rcases orep with _ | r
  · simp only [run_main]
    exact run_update_c3 ⟨none, fb, br⟩ remote ud user
  · by_cases hr : r = ""
    · subst hr
      simp only [run_main, if_true]
      exact run_update_c3 ⟨some "", fb, br⟩ remote ud user
    · simp only [run_main]
      rw [if_neg hr]
      exact run_clone_c3 r ⟨some r, fb, br⟩ remote cd user
theorem run_clone_c4 (rep : String) (args : Args) (remote : Remote) (cd : CloneDisk)
    (user : UserChoices) :
    matSucceeded (run_clone rep args remote cd user).trace = true →
    ∃ sha, (run_clone rep args remote cd user).resolvedSha = some sha ∧
      (run_clone rep args remote cd user).versionAfter = some sha ∧
      (run_clone rep args remote cd user).versionBefore ≠ some sha ∧
      Event.writeVersion sha ∈ (run_clone rep args remote cd user).trace ∧
      ∃ o n, parse_repo_arg rep = .ok (o, n) ∧
        (run_clone rep args remote cd user).gitpullAfter = some (canonicalUrl o n) ∧
        Event.writeOrigin (canonicalUrl o n) ∈ (run_clone rep args remote cd user).trace := by
  simp only [run_clone]
  split
  · intro h
    simp [matSucceeded] at h
  · split
    · intro h
      simp [matSucceeded] at h
    · rename_i db heqdb
      generalize (branchChoice args.branch remote user db).2 = bo
      have hbc := branchChoice_any_false args.branch remote user db Event.isMatSuccess rfl rfl
      cases bo with
      | failed =>
        intro h
        simp [matSucceeded, List.any_append, hbc] at h
      | aborted =>
        intro h
        simp [matSucceeded, List.any_append, hbc] at h
      | chosen branch =>
        repeat' split
        all_goals intro h
        all_goals try exact ⟨_, rfl, rfl, by assumption, by simp, _, _, by assumption, rfl,
          by simp⟩
        all_goals simp [matSucceeded, List.any_append, hbc] at h

theorem run_update_rest_c4 (args : Args) (remote : Remote) (ud : UpdateDisk)
    (user : UserChoices) (url : String) (gNow : Option String) (ev0 : List Event)
    (hev0 : ev0.any Event.isMatSuccess = false)
    (hg : ∀ u, truthy ud.gitpull = some u → gNow = some u) :
    matSucceeded (run_update_rest args remote ud user url gNow ev0).trace = true →
    ∃ sha, (run_update_rest args remote ud user url gNow ev0).resolvedSha = some sha ∧
      (run_update_rest args remote ud user url gNow ev0).versionAfter = some sha ∧
      (run_update_rest args remote ud user url gNow ev0).versionBefore ≠ some sha ∧
      Event.writeVersion sha ∈ (run_update_rest args remote ud user url gNow ev0).trace ∧
      ∀ u, (run_update_rest args remote ud user url gNow ev0).gitpullBefore = some u →
        (run_update_rest args remote ud user url gNow ev0).gitpullAfter = some u := by
  simp only [run_update_rest]
  split
  · intro h
    simp [matSucceeded, hev0] at h
  · split
    · intro h
      simp [matSucceeded, List.any_append, hev0] at h
    · rename_i db heqdb
      generalize (branchChoice args.branch remote user db).2 = bo
      have hbc := branchChoice_any_false args.branch remote user db Event.isMatSuccess rfl rfl
      cases bo with
      | failed =>
        intro h
        simp [matSucceeded, List.any_append, hbc, hev0] at h
      | aborted =>
        intro h
        simp [matSucceeded, List.any_append, hbc, hev0] at h
      | chosen branch =>
        repeat' split
        all_goals intro h
        all_goals try exact ⟨_, rfl, rfl, by assumption, by simp, hg⟩
        all_goals simp [matSucceeded, List.any_append, hbc, hev0] at h

theorem run_update_c4 (args : Args) (remote : Remote) (ud : UpdateDisk)
    (user : UserChoices) :
    matSucceeded (run_update args remote ud user).trace = true →
    ∃ sha, (run_update args remote ud user).resolvedSha = some sha ∧
      (run_update args remote ud user).versionAfter = some sha ∧
      (run_update args remote ud user).versionBefore ≠ some sha ∧
      Event.writeVersion sha ∈ (run_update args remote ud user).trace ∧
      ∀ u, (run_update args remote ud user).gitpullBefore = some u →
        (run_update args remote ud user).gitpullAfter = some u := by
  simp only [run_update]
  split
  · exact run_update_rest_c4 args remote ud user _ _ [] rfl (fun _ h => h)
  · rename_i hgnone
    split
    · split
      · intro h
        simp [matSucceeded] at h
      · exact run_update_rest_c4 args remote ud user _ _ [] rfl (fun _ h => h)
    · split
      · intro h
        simp [matSucceeded] at h
      · split
        · intro h
          simp [matSucceeded] at h
        · split
          · intro h
            simp [matSucceeded] at h
          · refine run_update_rest_c4 args remote ud user _ _ _ (by simp) ?_
            intro u hu
            rw [hgnone] at hu
            cases hu
/-- Claim C4 is false as stated: a successful update-mode run (origin record
present, resolved commit differs from the stored one, zip materialization
succeeds) rewrites the last-commit record but performs no origin-record
write at all — the trace contains no `writeOrigin` event. -/
theorem c4_update_no_origin_rewrite_counterexample :
    matSucceeded (run_main ⟨none, false, none⟩
      ⟨.ok "main", .ok ["main"], fun _ => .ok "newsha", fun _ => .ok (), .ok (), .ok ()⟩
      ⟨false, none, none⟩
      ⟨some "https://github.com/o/r", false, .ok "x", some "oldsha"⟩
      ⟨none, none⟩).trace = true ∧
    (run_main ⟨none, false, none⟩
      ⟨.ok "main", .ok ["main"], fun _ => .ok "newsha", fun _ => .ok (), .ok (), .ok ()⟩
      ⟨false, none, none⟩
      ⟨some "https://github.com/o/r", false, .ok "x", some "oldsha"⟩
      ⟨none, none⟩).versionBefore = some "oldsha" ∧
    (run_main ⟨none, false, none⟩
      ⟨.ok "main", .ok ["main"], fun _ => .ok "newsha", fun _ => .ok (), .ok (), .ok ()⟩
      ⟨false, none, none⟩
      ⟨some "https://github.com/o/r", false, .ok "x", some "oldsha"⟩
      ⟨none, none⟩).resolvedSha = some "newsha" ∧
    (run_main ⟨none, false, none⟩
      ⟨.ok "main", .ok ["main"], fun _ => .ok "newsha", fun _ => .ok (), .ok (), .ok ()⟩
      ⟨false, none, none⟩
      ⟨some "https://github.com/o/r", false, .ok "x", some "oldsha"⟩
      ⟨none, none⟩).versionAfter = some "newsha" ∧
    ((run_main ⟨none, false, none⟩
      ⟨.ok "main", .ok ["main"], fun _ => .ok "newsha", fun _ => .ok (), .ok (), .ok ()⟩
      ⟨false, none, none⟩
      ⟨some "https://github.com/o/r", false, .ok "x", some "oldsha"⟩
      ⟨none, none⟩).trace.all fun e => !e.isWriteOrigin) = true := by
  refine ⟨by decide, by decide, by decide, by decide, by decide⟩

/-- Claim C4 (amended): when the resolved commit differs from the stored
record and materialization succeeds, the driver rewrites the last-commit
record to the resolved commit; the origin record is additionally rewritten
in clone mode (a repository argument was given), while in update mode any
stored origin record keeps its value (no origin rewrite happens there). -/
theorem c4_success_rewrites_amended (args : Args) (remote : Remote) (cd : CloneDisk)
    (ud : UpdateDisk) (user : UserChoices) :
    matSucceeded (run_main args remote cd ud user).trace = true →
    (∃ sha, (run_main args remote cd ud user).resolvedSha = some sha ∧
      (run_main args remote cd ud user).versionAfter = some sha ∧
      (run_main args remote cd ud user).versionBefore ≠ some sha ∧
      Event.writeVersion sha ∈ (run_main args remote cd ud user).trace) ∧
    (∀ rep, args.repo = some rep → rep ≠ "" →
      ∃ o n, parse_repo_arg rep = .ok (o, n) ∧
        (run_main args remote cd ud user).gitpullAfter = some (canonicalUrl o n) ∧
        Event.writeOrigin (canonicalUrl o n) ∈ (run_main args remote cd ud user).trace) ∧
    ((args.repo = none ∨ args.repo = some "") →
      ∀ u, (run_main args remote cd ud user).gitpullBefore = some u →
        (run_main args remote cd ud user).gitpullAfter = some u) := by
  obtain ⟨orep, fb, br⟩ := args
  rcases orep with _ | r
  · simp only [run_main]
    intro h
    obtain ⟨sha, h1, h2, h3, h4, h5⟩ := run_update_c4 ⟨none, fb, br⟩ remote ud user h
    refine ⟨⟨sha, h1, h2, h3, h4⟩, ?_, ?_⟩
    · intro rep hrep
      exact nomatch hrep
    · intro _
      exact h5
  · by_cases hr : r = ""
    · subst hr
      simp only [run_main, if_true]
      intro h
      obtain ⟨sha, h1, h2, h3, h4, h5⟩ := run_update_c4 ⟨some "", fb, br⟩ remote ud user h
      refine ⟨⟨sha, h1, h2, h3, h4⟩, ?_, fun _ => h5⟩
      intro rep hrep hne
      cases hrep
      exact absurd rfl hne
    · simp only [run_main]
      rw [if_neg hr]
      intro h
      obtain ⟨sha, h1, h2, h3, h4, o, n, hp, hga, hwo⟩ :=
        run_clone_c4 r ⟨some r, fb, br⟩ remote cd user h
      refine ⟨⟨sha, h1, h2, h3, h4⟩, ?_, ?_⟩
      · intro rep hrep _
        cases hrep
        exact ⟨o, n, hp, hga, hwo⟩
      · intro hcontra
        rcases hcontra with h' | h'
        · exact nomatch h'
        · injection h' with h''
          exact absurd h'' hr
/-- Witness for C2: a concrete up-to-date update-mode run. -/
theorem c2_up_to_date_no_effects_witness :
    (run_main ⟨none, false, none⟩
      ⟨.ok "main", .ok ["main"], fun _ => .ok "abc", fun _ => .ok (), .ok (), .ok ()⟩
      ⟨false, none, none⟩ ⟨some "https://github.com/o/r", false, .ok "x", some "abc"⟩
      ⟨none, none⟩).versionBefore = some "abc" ∧
    (run_main ⟨none, false, none⟩
      ⟨.ok "main", .ok ["main"], fun _ => .ok "abc", fun _ => .ok (), .ok (), .ok ()⟩
      ⟨false, none, none⟩ ⟨some "https://github.com/o/r", false, .ok "x", some "abc"⟩
      ⟨none, none⟩).resolvedSha = some "abc" ∧
    (noMaterialization (run_main ⟨none, false, none⟩
      ⟨.ok "main", .ok ["main"], fun _ => .ok "abc", fun _ => .ok (), .ok (), .ok ()⟩
      ⟨false, none, none⟩ ⟨some "https://github.com/o/r", false, .ok "x", some "abc"⟩
      ⟨none, none⟩).trace = true ∧
    (run_main ⟨none, false, none⟩
      ⟨.ok "main", .ok ["main"], fun _ => .ok "abc", fun _ => .ok (), .ok (), .ok ()⟩
      ⟨false, none, none⟩ ⟨some "https://github.com/o/r", false, .ok "x", some "abc"⟩
      ⟨none, none⟩).versionAfter =
      (run_main ⟨none, false, none⟩
      ⟨.ok "main", .ok ["main"], fun _ => .ok "abc", fun _ => .ok (), .ok (), .ok ()⟩
      ⟨false, none, none⟩ ⟨some "https://github.com/o/r", false, .ok "x", some "abc"⟩
      ⟨none, none⟩).versionBefore ∧
    ∀ u, (run_main ⟨none, false, none⟩
      ⟨.ok "main", .ok ["main"], fun _ => .ok "abc", fun _ => .ok (), .ok (), .ok ()⟩
      ⟨false, none, none⟩ ⟨some "https://github.com/o/r", false, .ok "x", some "abc"⟩
      ⟨none, none⟩).gitpullBefore = some u →
      (run_main ⟨none, false, none⟩
      ⟨.ok "main", .ok ["main"], fun _ => .ok "abc", fun _ => .ok (), .ok (), .ok ()⟩
      ⟨false, none, none⟩ ⟨some "https://github.com/o/r", false, .ok "x", some "abc"⟩
      ⟨none, none⟩).gitpullAfter = some u) :=
  ⟨by decide, by decide,
    c2_up_to_date_no_effects ⟨none, false, none⟩
      ⟨.ok "main", .ok ["main"], fun _ => .ok "abc", fun _ => .ok (), .ok (), .ok ()⟩
      ⟨false, none, none⟩ ⟨some "https://github.com/o/r", false, .ok "x", some "abc"⟩
      ⟨none, none⟩ "abc" (by decide) (by decide)⟩

/-- Witness for C3: a concrete update-mode run whose archive download fails. -/
theorem c3_failed_materialization_preserves_state_witness :
    matFailed (run_main ⟨none, false, none⟩
      ⟨.ok "main", .ok ["main"], fun _ => .ok "new",
        fun _ => .error (.runtimeError "Failed to download zip: blocked"), .ok (), .ok ()⟩
      ⟨false, none, none⟩ ⟨some "https://github.com/o/r", false, .ok "x", some "old"⟩
      ⟨none, none⟩).trace = true ∧
    ((run_main ⟨none, false, none⟩
      ⟨.ok "main", .ok ["main"], fun _ => .ok "new",
        fun _ => .error (.runtimeError "Failed to download zip: blocked"), .ok (), .ok ()⟩
      ⟨false, none, none⟩ ⟨some "https://github.com/o/r", false, .ok "x", some "old"⟩
      ⟨none, none⟩).outcome = .exit 1 ∧
    (run_main ⟨none, false, none⟩
      ⟨.ok "main", .ok ["main"], fun _ => .ok "new",
        fun _ => .error (.runtimeError "Failed to download zip: blocked"), .ok (), .ok ()⟩
      ⟨false, none, none⟩ ⟨some "https://github.com/o/r", false, .ok "x", some "old"⟩
      ⟨none, none⟩).versionAfter =
      (run_main ⟨none, false, none⟩
      ⟨.ok "main", .ok ["main"], fun _ => .ok "new",
        fun _ => .error (.runtimeError "Failed to download zip: blocked"), .ok (), .ok ()⟩
      ⟨false, none, none⟩ ⟨some "https://github.com/o/r", false, .ok "x", some "old"⟩
      ⟨none, none⟩).versionBefore ∧
    ∀ u, (run_main ⟨none, false, none⟩
      ⟨.ok "main", .ok ["main"], fun _ => .ok "new",
        fun _ => .error (.runtimeError "Failed to download zip: blocked"), .ok (), .ok ()⟩
      ⟨false, none, none⟩ ⟨some "https://github.com/o/r", false, .ok "x", some "old"⟩
      ⟨none, none⟩).gitpullBefore = some u →
      (run_main ⟨none, false, none⟩
      ⟨.ok "main", .ok ["main"], fun _ => .ok "new",
        fun _ => .error (.runtimeError "Failed to download zip: blocked"), .ok (), .ok ()⟩
      ⟨false, none, none⟩ ⟨some "https://github.com/o/r", false, .ok "x", some "old"⟩
      ⟨none, none⟩).gitpullAfter = some u) :=
  ⟨by decide,
    c3_failed_materialization_preserves_state ⟨none, false, none⟩
      ⟨.ok "main", .ok ["main"], fun _ => .ok "new",
        fun _ => .error (.runtimeError "Failed to download zip: blocked"), .ok (), .ok ()⟩
      ⟨false, none, none⟩ ⟨some "https://github.com/o/r", false, .ok "x", some "old"⟩
      ⟨none, none⟩ (by decide)⟩

/-- Witness for the amended C4 at a concrete clone-mode run. -/
theorem c4_success_rewrites_amended_witness :
    matSucceeded (run_main ⟨some "o/r", false, none⟩
      ⟨.ok "main", .ok ["main"], fun _ => .ok "newsha", fun _ => .ok (), .ok (), .ok ()⟩
      ⟨false, none, none⟩ ⟨none, false, .ok "x", none⟩ ⟨none, none⟩).trace = true ∧
    ((∃ sha, (run_main ⟨some "o/r", false, none⟩
      ⟨.ok "main", .ok ["main"], fun _ => .ok "newsha", fun _ => .ok (), .ok (), .ok ()⟩
      ⟨false, none, none⟩ ⟨none, false, .ok "x", none⟩ ⟨none, none⟩).resolvedSha = some sha ∧
      (run_main ⟨some "o/r", false, none⟩
      ⟨.ok "main", .ok ["main"], fun _ => .ok "newsha", fun _ => .ok (), .ok (), .ok ()⟩
      ⟨false, none, none⟩ ⟨none, false, .ok "x", none⟩ ⟨none, none⟩).versionAfter = some sha ∧
      (run_main ⟨some "o/r", false, none⟩
      ⟨.ok "main", .ok ["main"], fun _ => .ok "newsha", fun _ => .ok (), .ok (), .ok ()⟩
      ⟨false, none, none⟩ ⟨none, false, .ok "x", none⟩ ⟨none, none⟩).versionBefore ≠ some sha ∧
      Event.writeVersion sha ∈ (run_main ⟨some "o/r", false, none⟩
      ⟨.ok "main", .ok ["main"], fun _ => .ok "newsha", fun _ => .ok (), .ok (), .ok ()⟩
      ⟨false, none, none⟩ ⟨none, false, .ok "x", none⟩ ⟨none, none⟩).trace) ∧
    (∀ rep, (⟨some "o/r", false, none⟩ : Args).repo = some rep → rep ≠ "" →
      ∃ o n, parse_repo_arg rep = .ok (o, n) ∧
        (run_main ⟨some "o/r", false, none⟩
      ⟨.ok "main", .ok ["main"], fun _ => .ok "newsha", fun _ => .ok (), .ok (), .ok ()⟩
      ⟨false, none, none⟩ ⟨none, false, .ok "x", none⟩ ⟨none, none⟩).gitpullAfter =
          some (canonicalUrl o n) ∧
        Event.writeOrigin (canonicalUrl o n) ∈ (run_main ⟨some "o/r", false, none⟩
      ⟨.ok "main", .ok ["main"], fun _ => .ok "newsha", fun _ => .ok (), .ok (), .ok ()⟩
      ⟨false, none, none⟩ ⟨none, false, .ok "x", none⟩ ⟨none, none⟩).trace) ∧
    (((⟨some "o/r", false, none⟩ : Args).repo = none ∨
        (⟨some "o/r", false, none⟩ : Args).repo = some "") →
      ∀ u, (run_main ⟨some "o/r", false, none⟩
      ⟨.ok "main", .ok ["main"], fun _ => .ok "newsha", fun _ => .ok (), .ok (), .ok ()⟩
      ⟨false, none, none⟩ ⟨none, false, .ok "x", none⟩ ⟨none, none⟩).gitpullBefore = some u →
        (run_main ⟨some "o/r", false, none⟩
      ⟨.ok "main", .ok ["main"], fun _ => .ok "newsha", fun _ => .ok (), .ok (), .ok ()⟩
      ⟨false, none, none⟩ ⟨none, false, .ok "x", none⟩ ⟨none, none⟩).gitpullAfter = some u)) :=
  ⟨by decide,
    c4_success_rewrites_amended ⟨some "o/r", false, none⟩
      ⟨.ok "main", .ok ["main"], fun _ => .ok "newsha", fun _ => .ok (), .ok (), .ok ()⟩
      ⟨false, none, none⟩ ⟨none, false, .ok "x", none⟩ ⟨none, none⟩ (by decide)⟩
theorem branchChoice_question (remote : Remote) (user : UserChoices) (db : String) :
    branchChoice (some "?") remote user db = branchChoice none remote user db := rfl

/-- Claim C10: an explicit branch option whose value is exactly `?` is not
used as a branch name: the run is identical to a run with no branch option
at all (so the branch list is fetched and, with more than one branch,
interactive selection is invoked).  The conjunction exhibits a concrete
two-branch run with `-b ?` whose trace fetches the branch list, invokes
selection, and resolves the user-selected branch `dev` — never a branch
named `?`. -/
theorem c10_question_mark_branch (args : Args) (remote : Remote) (cd : CloneDisk)
    (ud : UpdateDisk) (user : UserChoices) (hq : args.branch = some "?") :
    run_main args remote cd ud user =
      run_main ⟨args.repo, args.fallback, none⟩ remote cd ud user ∧
    Event.fetchBranches ∈ (run_main ⟨none, false, some "?"⟩
      ⟨.ok "main", .ok ["dev", "main"], fun b => .ok b, fun _ => .ok (), .ok (), .ok ()⟩
      ⟨false, none, none⟩ ⟨some "https://github.com/o/r", false, .ok "x", none⟩
      ⟨some "dev", none⟩).trace ∧
    Event.selectBranch ∈ (run_main ⟨none, false, some "?"⟩
      ⟨.ok "main", .ok ["dev", "main"], fun b => .ok b, fun _ => .ok (), .ok (), .ok ()⟩
      ⟨false, none, none⟩ ⟨some "https://github.com/o/r", false, .ok "x", none⟩
      ⟨some "dev", none⟩).trace ∧
    Event.fetchSha "dev" ∈ (run_main ⟨none, false, some "?"⟩
      ⟨.ok "main", .ok ["dev", "main"], fun b => .ok b, fun _ => .ok (), .ok (), .ok ()⟩
      ⟨false, none, none⟩ ⟨some "https://github.com/o/r", false, .ok "x", none⟩
      ⟨some "dev", none⟩).trace ∧
    (run_main ⟨none, false, some "?"⟩
      ⟨.ok "main", .ok ["dev", "main"], fun b => .ok b, fun _ => .ok (), .ok (), .ok ()⟩
      ⟨false, none, none⟩ ⟨some "https://github.com/o/r", false, .ok "x", none⟩
      ⟨some "dev", none⟩).resolvedSha = some "dev" ∧
    Event.fetchSha "?" ∉ (run_main ⟨none, false, some "?"⟩
      ⟨.ok "main", .ok ["dev", "main"], fun b => .ok b, fun _ => .ok (), .ok (), .ok ()⟩
      ⟨false, none, none⟩ ⟨some "https://github.com/o/r", false, .ok "x", none⟩
      ⟨some "dev", none⟩).trace := by
  refine ⟨?_, by decide, by decide, by decide, by decide, by decide⟩
  obtain ⟨orep, fb, br⟩ := args
  simp only at hq
  subst hq
  rcases orep with _ | r
  · simp only [run_main, run_update, run_update_rest, branchChoice_question]
  · by_cases hr : r = ""
    · subst hr
      simp only [run_main, if_true, run_update, run_update_rest, branchChoice_question]
    · simp only [run_main]
      rw [if_neg hr, if_neg hr]
      simp only [run_clone, branchChoice_question]
/-- Witness for C10 at concrete inputs with the branch option set to `?`. -/
theorem c10_question_mark_branch_witness :
    ((⟨none, false, some "?"⟩ : Args).branch = some "?") ∧
    (run_main ⟨none, false, some "?"⟩
      ⟨.ok "main", .ok ["dev", "main"], fun b => .ok b, fun _ => .ok (), .ok (), .ok ()⟩
      ⟨false, none, none⟩ ⟨some "https://github.com/o/r", false, .ok "x", none⟩
      ⟨some "dev", none⟩ =
      run_main ⟨none, false, none⟩
      ⟨.ok "main", .ok ["dev", "main"], fun b => .ok b, fun _ => .ok (), .ok (), .ok ()⟩
      ⟨false, none, none⟩ ⟨some "https://github.com/o/r", false, .ok "x", none⟩
      ⟨some "dev", none⟩) :=
  ⟨by decide,
    (c10_question_mark_branch ⟨none, false, some "?"⟩
      ⟨.ok "main", .ok ["dev", "main"], fun b => .ok b, fun _ => .ok (), .ok (), .ok ()⟩
      ⟨false, none, none⟩ ⟨some "https://github.com/o/r", false, .ok "x", none⟩
      ⟨some "dev", none⟩ (by decide)).1⟩

/-! ## Reference and stored-URL parser theorems (C8, C9) -/

theorem splitOnSlash_noslash (l : List Char) (h : ∀ c ∈ l, c ≠ '/') :
    splitOnSlash l = [l] := by
  induction l with
  | nil => rfl
  | cons c rest ih =>
    have hc : c ≠ '/' := h c (by simp)
    simp only [splitOnSlash, if_neg hc]
    rw [ih fun x hx => h x (by simp [hx])]

theorem splitOnSlash_append (a b : List Char) (h : ∀ c ∈ a, c ≠ '/') :
    splitOnSlash (a ++ '/' :: b) = a :: splitOnSlash b := by
  induction a with
  | nil => simp [splitOnSlash]
  | cons c rest ih =>
    have hc : c ≠ '/' := h c (by simp)
    simp only [List.cons_append, splitOnSlash, if_neg hc, List.append_eq]
    rw [ih fun x hx => h x (by simp [hx])]

theorem matchTwoSegs_pair (a b : List Char) (ha : a ≠ []) (hb : b ≠ [])
    (ha' : ∀ c ∈ a, c ≠ '/') (hb' : ∀ c ∈ b, c ≠ '/') :
    matchTwoSegs (a ++ '/' :: b) = some (String.mk a, String.mk b) := by
  unfold matchTwoSegs
  rw [splitOnSlash_append a b ha', splitOnSlash_noslash b hb']
  simp [ha, hb]

theorem matchTwoSegs_single (l : List Char) (h : ∀ c ∈ l, c ≠ '/') :
    matchTwoSegs l = none := by
  unfold matchTwoSegs
  rw [splitOnSlash_noslash l h]

theorem stripPrefixL_self (p r : List Char) : stripPrefixL p (p ++ r) = some r := by
  induction p with
  | nil => rfl
  | cons c rest ih => simp [stripPrefixL, ih]

theorem stripPrefixL_eq_append {p l r : List Char} (h : stripPrefixL p l = some r) :
    l = p ++ r := by
  induction p generalizing l with
  | nil =>
    simp [stripPrefixL] at h
    simp [h]
  | cons c rest ih =>
    cases l with
    | nil => simp [stripPrefixL] at h
    | cons d t =>
      simp only [stripPrefixL] at h
      split at h
      · rename_i hcd
        subst hcd
        rw [ih h]
        simp
      · cases h

theorem stripPrefixL_firstSlash (p q a b : List Char) (hp : ∀ c ∈ p, c ≠ '/')
    (ha : ∀ c ∈ a, c ≠ '/') :
    stripPrefixL (p ++ '/' :: q) (a ++ '/' :: b) =
      if a = p then stripPrefixL q b else none := by
  induction p generalizing a with
  | nil =>
    cases a with
    | nil => simp [stripPrefixL]
    | cons d t =>
      have hd : d ≠ '/' := ha d (by simp)
      rw [if_neg (by simp : ¬(d :: t = ([] : List Char)))]
      simp only [List.nil_append, List.cons_append, stripPrefixL, List.append_eq]
      rw [if_neg fun h => hd h.symm]
  | cons c rest ih =>
    have hc : c ≠ '/' := hp c (by simp)
    cases a with
    | nil =>
      rw [if_neg (by simp : ¬(([] : List Char) = c :: rest))]
      simp only [List.nil_append, List.cons_append, stripPrefixL, List.append_eq]
      rw [if_neg hc]
    | cons d t =>
      simp only [List.cons_append, stripPrefixL, List.append_eq]
      by_cases hcd : c = d
      · subst hcd
        rw [if_pos rfl]
        rw [ih t (fun x hx => hp x (by simp [hx])) (fun x hx => ha x (by simp [hx]))]
        by_cases ht : t = rest
        · subst ht
          rw [if_pos rfl, if_pos rfl]
        · rw [if_neg ht, if_neg (by
            intro h
            injection h with h1 h2
            exact ht h2)]
      · rw [if_neg hcd, if_neg (by
          intro h
          injection h with h1 h2
          exact hcd h1.symm)]
theorem dropWhile_all_false {p : Char → Bool} (l : List Char)
    (h : ∀ c ∈ l, p c = false) : l.dropWhile p = l := by
  cases l with
  | nil => rfl
  | cons a t =>
    rw [List.dropWhile_cons, h a (by simp)]
    simp

theorem rstrip_keep (a b : List Char) (hb : b ≠ []) (hb' : ∀ c ∈ b, c ≠ '/') :
    rstripSlashes (a ++ b) = a ++ b := by
  unfold rstripSlashes
  rw [List.reverse_append, List.dropWhile_append]
  rw [dropWhile_all_false b.reverse (by
    intro c hc
    rw [List.mem_reverse] at hc
    simp [hb' c hc])]
  rw [if_neg (by simp [hb])]
  simp

theorem rstrip_noslash (l : List Char) (h : ∀ c ∈ l, c ≠ '/') :
    rstripSlashes l = l := by
  unfold rstripSlashes
  rw [dropWhile_all_false l.reverse (by
    intro c hc
    rw [List.mem_reverse] at hc
    simp [h c hc])]
  simp

theorem rstrip_slash (l : List Char) :
    rstripSlashes (l ++ ['/']) = rstripSlashes l := by
  unfold rstripSlashes
  rw [List.reverse_append]
  simp [List.dropWhile_cons]

theorem rstrip_subset (l : List Char) : ∀ c ∈ rstripSlashes l, c ∈ l := by
  intro c hc
  unfold rstripSlashes at hc
  rw [List.mem_reverse] at hc
  have := (List.dropWhile_sublist (fun c => c == '/') (l := l.reverse)).mem hc
  rwa [List.mem_reverse] at this

theorem isSuffixOf_append_self (s t : List Char) : s.isSuffixOf (t ++ s) = true := by
  unfold List.isSuffixOf
  rw [List.reverse_append]
  exact isPrefixOf_append_self s.reverse t.reverse

theorem dotgit_suffix_append (a n : List Char) :
    ".git".data.isSuffixOf (a ++ '/' :: n) = ".git".data.isSuffixOf n := by
  unfold List.isSuffixOf
  rw [show (a ++ '/' :: n).reverse = n.reverse ++ '/' :: a.reverse by
    simp [List.reverse_append]]
  rw [show (".git".data).reverse = ['t', 'i', 'g', '.'] from rfl]
  rcases n.reverse with _ | ⟨a1, _ | ⟨a2, _ | ⟨a3, _ | ⟨a4, m⟩⟩⟩⟩ <;>
    simp [List.isPrefixOf]

theorem stripDotGit_no (l : List Char) (h : ".git".data.isSuffixOf l = false) :
    stripDotGit l = l := by
  unfold stripDotGit
  rw [h]
  simp

theorem stripDotGit_yes (l : List Char) :
    stripDotGit (l ++ ".git".data) = l := by
  unfold stripDotGit
  rw [isSuffixOf_append_self]
  simp only [if_true]
  rw [show (l ++ ".git".data).length - 4 = l.length by simp]
  exact List.take_left l ".git".data

theorem stripDotGit_subset (l : List Char) : ∀ c ∈ stripDotGit l, c ∈ l := by
  intro c hc
  unfold stripDotGit at hc
  split at hc
  · exact (List.take_sublist _ _).mem hc
  · exact hc
theorem head_ne_slash (l : List Char) (hne : l ≠ []) (h : ∀ c ∈ l, c ≠ '/') :
    l.head? ≠ some '/' := by
  cases l with
  | nil => exact absurd rfl hne
  | cons c t =>
    intro hc
    injection hc with hc
    exact h c (by simp) hc

theorem https_strip_bare (owner rest : List Char) (ho : ∀ c ∈ owner, c ≠ '/')
    (hrh : rest.head? ≠ some '/') :
    stripPrefixL "https://github.com/".data (owner ++ '/' :: rest) = none := by
  rw [show "https://github.com/".data = "https:".data ++ '/' :: "/github.com/".data from rfl]
  rw [stripPrefixL_firstSlash _ _ _ _ (by decide) ho]
  split
  · cases rest with
    | nil => rfl
    | cons c t =>
      have hc : c ≠ '/' := by
        intro h
        exact hrh (by rw [h]; rfl)
      rw [show ("/github.com/" : String).data = '/' :: "github.com/".data from rfl]
      simp only [stripPrefixL]
      rw [if_neg fun h => hc h.symm]
  · rfl

theorem http_strip_bare (owner rest : List Char) (ho : ∀ c ∈ owner, c ≠ '/')
    (hrh : rest.head? ≠ some '/') :
    stripPrefixL "http://github.com/".data (owner ++ '/' :: rest) = none := by
  rw [show "http://github.com/".data = "http:".data ++ '/' :: "/github.com/".data from rfl]
  rw [stripPrefixL_firstSlash _ _ _ _ (by decide) ho]
  split
  · cases rest with
    | nil => rfl
    | cons c t =>
      have hc : c ≠ '/' := by
        intro h
        exact hrh (by rw [h]; rfl)
      rw [show ("/github.com/" : String).data = '/' :: "github.com/".data from rfl]
      simp only [stripPrefixL]
      rw [if_neg fun h => hc h.symm]
  · rfl

theorem domain_strip_bare (owner rest : List Char) (ho : ∀ c ∈ owner, c ≠ '/') :
    stripPrefixL "github.com/".data (owner ++ '/' :: rest) =
      if owner = "github.com".data then some rest else none := by
  rw [show "github.com/".data = "github.com".data ++ '/' :: [] from rfl]
  rw [stripPrefixL_firstSlash _ _ _ _ (by decide) ho]
  split <;> simp [stripPrefixL]

theorem matchPatterns_bare (owner name : List Char) (ho : owner ≠ []) (hn : name ≠ [])
    (ho' : ∀ c ∈ owner, c ≠ '/') (hn' : ∀ c ∈ name, c ≠ '/') :
    matchPatterns (owner ++ '/' :: name) = some (String.mk owner, String.mk name) := by
  have h1 : tryPattern "https://github.com/".data (owner ++ '/' :: name) = none := by
    unfold tryPattern
    rw [https_strip_bare owner name ho' (head_ne_slash name hn hn')]
  have h2 : tryPattern "http://github.com/".data (owner ++ '/' :: name) = none := by
    unfold tryPattern
    rw [http_strip_bare owner name ho' (head_ne_slash name hn hn')]
  have h3 : tryPattern "github.com/".data (owner ++ '/' :: name) = none := by
    unfold tryPattern
    rw [domain_strip_bare owner name ho']
    by_cases hgh : owner = "github.com".data
    · rw [if_pos hgh]
      show matchTwoSegs name = none
      exact matchTwoSegs_single name hn'
    · rw [if_neg hgh]
  simp only [matchPatterns, h1, h2, h3]
  exact matchTwoSegs_pair owner name ho hn ho' hn'

theorem matchPatterns_domain (owner name : List Char) (ho : owner ≠ []) (hn : name ≠ [])
    (ho' : ∀ c ∈ owner, c ≠ '/') (hn' : ∀ c ∈ name, c ≠ '/') :
    matchPatterns ("github.com/".data ++ owner ++ '/' :: name) =
      some (String.mk owner, String.mk name) := by
  have h1 : tryPattern "https://github.com/".data
      ("github.com/".data ++ owner ++ '/' :: name) = none := by
    unfold tryPattern
    rw [show "github.com/".data ++ owner ++ '/' :: name =
      'g' :: ("ithub.com/".data ++ owner ++ '/' :: name) from rfl]
    simp only [stripPrefixL]
    rw [if_neg (by decide : ¬('h' = 'g'))]
  have h2 : tryPattern "http://github.com/".data
      ("github.com/".data ++ owner ++ '/' :: name) = none := by
    unfold tryPattern
    rw [show "github.com/".data ++ owner ++ '/' :: name =
      'g' :: ("ithub.com/".data ++ owner ++ '/' :: name) from rfl]
    simp only [stripPrefixL]
    rw [if_neg (by decide : ¬('h' = 'g'))]
  have h3 : tryPattern "github.com/".data ("github.com/".data ++ owner ++ '/' :: name) =
      some (String.mk owner, String.mk name) := by
    unfold tryPattern
    rw [List.append_assoc, stripPrefixL_self "github.com/".data (owner ++ '/' :: name)]
    show matchTwoSegs (owner ++ '/' :: name) = some (String.mk owner, String.mk name)
    exact matchTwoSegs_pair owner name ho hn ho' hn'
  simp only [matchPatterns, h1, h2, h3]

theorem matchPatterns_https (owner name : List Char) (ho : owner ≠ []) (hn : name ≠ [])
    (ho' : ∀ c ∈ owner, c ≠ '/') (hn' : ∀ c ∈ name, c ≠ '/') :
    matchPatterns ("https://github.com/".data ++ owner ++ '/' :: name) =
      some (String.mk owner, String.mk name) := by
  have h1 : tryPattern "https://github.com/".data
      ("https://github.com/".data ++ owner ++ '/' :: name) =
      some (String.mk owner, String.mk name) := by
    unfold tryPattern
    rw [List.append_assoc, stripPrefixL_self "https://github.com/".data (owner ++ '/' :: name)]
    show matchTwoSegs (owner ++ '/' :: name) = some (String.mk owner, String.mk name)
    exact matchTwoSegs_pair owner name ho hn ho' hn'
  simp only [matchPatterns, h1]

theorem matchPatterns_http (owner name : List Char) (ho : owner ≠ []) (hn : name ≠ [])
    (ho' : ∀ c ∈ owner, c ≠ '/') (hn' : ∀ c ∈ name, c ≠ '/') :
    matchPatterns ("http://github.com/".data ++ owner ++ '/' :: name) =
      some (String.mk owner, String.mk name) := by
  have h1 : tryPattern "https://github.com/".data
      ("http://github.com/".data ++ owner ++ '/' :: name) = none := by
    unfold tryPattern
    rw [show "http://github.com/".data ++ owner ++ '/' :: name =
      'h' :: 't' :: 't' :: 'p' :: ':' :: ("//github.com/".data ++ owner ++ '/' :: name)
      from rfl]
    simp [stripPrefixL]
  have h2 : tryPattern "http://github.com/".data
      ("http://github.com/".data ++ owner ++ '/' :: name) =
      some (String.mk owner, String.mk name) := by
    unfold tryPattern
    rw [List.append_assoc, stripPrefixL_self "http://github.com/".data (owner ++ '/' :: name)]
    show matchTwoSegs (owner ++ '/' :: name) = some (String.mk owner, String.mk name)
    exact matchTwoSegs_pair owner name ho hn ho' hn'
  simp only [matchPatterns, h1, h2]
theorem parse_repo_arg_suffix_forms (base : List Char) (pr : String × String)
    (hr : rstripSlashes base = base)
    (hg : ".git".data.isSuffixOf base = false)
    (hm : matchPatterns base = some pr) :
    parse_repo_arg (String.mk base) = .ok pr ∧
    parse_repo_arg (String.mk (base ++ ['/'])) = .ok pr ∧
    parse_repo_arg (String.mk (base ++ ".git".data)) = .ok pr ∧
    parse_repo_arg (String.mk (base ++ ".git".data ++ ['/'])) = .ok pr := by
  have hkeepgit : rstripSlashes (base ++ ".git".data) = base ++ ".git".data :=
    rstrip_keep base ".git".data (by decide) (by decide)
  refine ⟨?_, ?_, ?_, ?_⟩
  · simp only [parse_repo_arg]
    rw [hr, stripDotGit_no base hg, hm]
  · simp only [parse_repo_arg]
    rw [rstrip_slash, hr, stripDotGit_no base hg, hm]
  · simp only [parse_repo_arg]
    rw [hkeepgit, stripDotGit_yes, hm]
  · simp only [parse_repo_arg]
    rw [rstrip_slash, hkeepgit, stripDotGit_yes, hm]

theorem base_facts (pre owner name : List Char) (hn : name ≠ [])
    (hn' : ∀ c ∈ name, c ≠ '/') (hgit : ".git".data.isSuffixOf name = false) :
    rstripSlashes (pre ++ owner ++ '/' :: name) = pre ++ owner ++ '/' :: name ∧
    ".git".data.isSuffixOf (pre ++ owner ++ '/' :: name) = false := by
  constructor
  · rw [show pre ++ owner ++ '/' :: name = (pre ++ owner ++ ['/']) ++ name by simp]
    rw [rstrip_keep _ name hn hn']
  · rw [show pre ++ owner ++ '/' :: name = (pre ++ owner) ++ '/' :: name by simp]
    rw [dotgit_suffix_append, hgit]
theorem stripPrefixL_slash_mem_none (p l : List Char) (hp : '/' ∈ p)
    (hl : ∀ c ∈ l, c ≠ '/') : stripPrefixL p l = none := by
  cases hsp : stripPrefixL p l with
  | none => rfl
  | some r =>
    have hm := stripPrefixL_eq_append hsp
    exact absurd (hl '/' (hm ▸ List.mem_append_left r hp)) (by simp)

theorem matchPatterns_noslash (m : List Char) (h : ∀ c ∈ m, c ≠ '/') :
    matchPatterns m = none := by
  unfold matchPatterns tryPattern
  rw [stripPrefixL_slash_mem_none _ m (by decide) h,
    stripPrefixL_slash_mem_none _ m (by decide) h,
    stripPrefixL_slash_mem_none _ m (by decide) h,
    matchTwoSegs_single m h]

theorem matchPatterns_slashHead (m : List Char) (h : ∀ c ∈ m, c ≠ '/') :
    matchPatterns ('/' :: m) = none := by
  have hsplit : splitOnSlash ('/' :: m) = [] :: splitOnSlash m := by
    have := splitOnSlash_append [] m (by simp)
    simpa using this
  have h1 : stripPrefixL "https://github.com/".data ('/' :: m) = none := by
    rw [show "https://github.com/".data = 'h' :: "ttps://github.com/".data from rfl]
    simp only [stripPrefixL]
    rw [if_neg (by decide : ¬('h' = '/'))]
  have h2 : stripPrefixL "http://github.com/".data ('/' :: m) = none := by
    rw [show "http://github.com/".data = 'h' :: "ttp://github.com/".data from rfl]
    simp only [stripPrefixL]
    rw [if_neg (by decide : ¬('h' = '/'))]
  have h3 : stripPrefixL "github.com/".data ('/' :: m) = none := by
    rw [show "github.com/".data = 'g' :: "ithub.com/".data from rfl]
    simp only [stripPrefixL]
    rw [if_neg (by decide : ¬('g' = '/'))]
  have h4 : matchTwoSegs ('/' :: m) = none := by
    unfold matchTwoSegs
    rw [hsplit, splitOnSlash_noslash m h]
    simp
  unfold matchPatterns tryPattern
  rw [h1, h2, h3, h4]

theorem matchPatterns_threeSegs (a b t : List Char) (ha : a ≠ []) (hb : b ≠ [])
    (ha' : ∀ c ∈ a, c ≠ '/') (hb' : ∀ c ∈ b, c ≠ '/') (ht' : ∀ c ∈ t, c ≠ '/')
    (hgh : a ≠ "github.com".data) :
    matchPatterns (a ++ '/' :: (b ++ '/' :: t)) = none := by
  have hrh : (b ++ '/' :: t).head? ≠ some '/' := by
    cases b with
    | nil => exact absurd rfl hb
    | cons c f =>
      intro hc
      injection hc with hc
      exact hb' c (by simp) hc
  have h1 : tryPattern "https://github.com/".data (a ++ '/' :: (b ++ '/' :: t)) = none := by
    unfold tryPattern
    rw [https_strip_bare a (b ++ '/' :: t) ha' hrh]
  have h2 : tryPattern "http://github.com/".data (a ++ '/' :: (b ++ '/' :: t)) = none := by
    unfold tryPattern
    rw [http_strip_bare a (b ++ '/' :: t) ha' hrh]
  have h3 : tryPattern "github.com/".data (a ++ '/' :: (b ++ '/' :: t)) = none := by
    unfold tryPattern
    rw [domain_strip_bare a (b ++ '/' :: t) ha', if_neg hgh]
  have h4 : matchTwoSegs (a ++ '/' :: (b ++ '/' :: t)) = none := by
    unfold matchTwoSegs
    rw [splitOnSlash_append a _ ha', splitOnSlash_append b _ hb', splitOnSlash_noslash t ht']
  simp only [matchPatterns, h1, h2, h3, h4]

theorem matchPatterns_doubleSlash (a t : List Char) (ha : a ≠ [])
    (ha' : ∀ c ∈ a, c ≠ '/') (ht' : ∀ c ∈ t, c ≠ '/') :
    matchPatterns (a ++ '/' :: '/' :: t) = none := by
  have hsplit : splitOnSlash ('/' :: t) = [] :: splitOnSlash t := by
    have := splitOnSlash_append [] t (by simp)
    simpa using this
  have hmt : matchTwoSegs ('/' :: t) = none := by
    unfold matchTwoSegs
    rw [hsplit, splitOnSlash_noslash t ht']
    simp
  have hv1 : stripPrefixL "https://github.com/".data (a ++ '/' :: '/' :: t) = none := by
    rw [show "https://github.com/".data = "https:".data ++ '/' :: "/github.com/".data from rfl,
      stripPrefixL_firstSlash _ _ _ _ (by decide) ha']
    by_cases hA : a = "https:".data
    · rw [if_pos hA]
      rw [show ("/github.com/" : String).data = '/' :: "github.com/".data from rfl]
      rw [show stripPrefixL ('/' :: "github.com/".data) ('/' :: t) =
        stripPrefixL "github.com/".data t by simp [stripPrefixL]]
      exact stripPrefixL_slash_mem_none _ t (by decide) ht'
    · rw [if_neg hA]
  have hv2 : stripPrefixL "http://github.com/".data (a ++ '/' :: '/' :: t) = none := by
    rw [show "http://github.com/".data = "http:".data ++ '/' :: "/github.com/".data from rfl,
      stripPrefixL_firstSlash _ _ _ _ (by decide) ha']
    by_cases hA : a = "http:".data
    · rw [if_pos hA]
      rw [show ("/github.com/" : String).data = '/' :: "github.com/".data from rfl]
      rw [show stripPrefixL ('/' :: "github.com/".data) ('/' :: t) =
        stripPrefixL "github.com/".data t by simp [stripPrefixL]]
      exact stripPrefixL_slash_mem_none _ t (by decide) ht'
    · rw [if_neg hA]
  have h1 : tryPattern "https://github.com/".data (a ++ '/' :: '/' :: t) = none := by
    unfold tryPattern
    rw [hv1]
  have h2 : tryPattern "http://github.com/".data (a ++ '/' :: '/' :: t) = none := by
    unfold tryPattern
    rw [hv2]
  have h3 : tryPattern "github.com/".data (a ++ '/' :: '/' :: t) = none := by
    unfold tryPattern
    rw [domain_strip_bare a ('/' :: t) ha']
    by_cases hgh : a = "github.com".data
    · rw [if_pos hgh]
      exact hmt
    · rw [if_neg hgh]
  have h4 : matchTwoSegs (a ++ '/' :: '/' :: t) = none := by
    unfold matchTwoSegs
    rw [splitOnSlash_append a _ ha', hsplit, splitOnSlash_noslash t ht']
  simp only [matchPatterns, h1, h2, h3, h4]

theorem parse_repo_arg_err (m r : List Char)
    (hr : rstripSlashes m = r)
    (hm : matchPatterns (stripDotGit r) = none) :
    isInvalidRef (parse_repo_arg (String.mk m)) = true := by
  simp only [parse_repo_arg]
  rw [hr, hm]
  rfl

theorem matchPatterns_stripDotGit_noslash (u : List Char) (h : ∀ c ∈ u, c ≠ '/') :
    matchPatterns (stripDotGit u) = none :=
  matchPatterns_noslash _ (fun c hc => h c (stripDotGit_subset u c hc))

theorem parse_err_noslash (m : List Char) (h : ∀ c ∈ m, c ≠ '/') :
    isInvalidRef (parse_repo_arg (String.mk m)) = true :=
  parse_repo_arg_err m m (rstrip_noslash m h) (matchPatterns_stripDotGit_noslash m h)

theorem parse_err_threeSegs (a b t : List Char) (ha : a ≠ []) (hb : b ≠ []) (ht : t ≠ [])
    (ha' : ∀ c ∈ a, c ≠ '/') (hb' : ∀ c ∈ b, c ≠ '/') (ht' : ∀ c ∈ t, c ≠ '/')
    (hgh : a ≠ "github.com".data) :
    isInvalidRef (parse_repo_arg (String.mk (a ++ '/' :: (b ++ '/' :: t)))) = true := by
  have hrr : rstripSlashes (a ++ '/' :: (b ++ '/' :: t)) = a ++ '/' :: (b ++ '/' :: t) := by
    rw [show a ++ '/' :: (b ++ '/' :: t) = (a ++ '/' :: b ++ ['/']) ++ t by simp]
    exact rstrip_keep _ t ht ht'
  cases hsuf : ".git".data.isSuffixOf t with
  | false =>
    have hg : ".git".data.isSuffixOf (a ++ '/' :: (b ++ '/' :: t)) = false := by
      rw [dotgit_suffix_append a (b ++ '/' :: t), dotgit_suffix_append b t, hsuf]
    refine parse_repo_arg_err _ _ hrr ?_
    rw [stripDotGit_no _ hg]
    exact matchPatterns_threeSegs a b t ha hb ha' hb' ht' hgh
  | true =>
    have hsfx : ".git".data <:+ t := by rwa [List.isSuffixOf_iff_suffix] at hsuf
    obtain ⟨u, rfl⟩ := hsfx
    have hu : ∀ c ∈ u, c ≠ '/' := fun c hc => ht' c (List.mem_append_left _ hc)
    refine parse_repo_arg_err _ _ hrr ?_
    rw [show a ++ '/' :: (b ++ '/' :: (u ++ ".git".data)) =
      (a ++ '/' :: (b ++ '/' :: u)) ++ ".git".data by simp, stripDotGit_yes]
    exact matchPatterns_threeSegs a b u ha hb ha' hb' hu hgh

theorem parse_err_slashHead (name : List Char) (h : ∀ c ∈ name, c ≠ '/') :
    isInvalidRef (parse_repo_arg (String.mk ('/' :: name))) = true := by
  by_cases hne : name = []
  · subst hne
    decide
  · have hrr : rstripSlashes ('/' :: name) = '/' :: name := by
      rw [show ('/' :: name : List Char) = ['/'] ++ name from rfl]
      exact rstrip_keep ['/'] name hne h
    cases hsuf : ".git".data.isSuffixOf name with
    | false =>
      have hg : ".git".data.isSuffixOf ('/' :: name) = false := by
        rw [show ('/' :: name : List Char) = [] ++ '/' :: name from rfl,
          dotgit_suffix_append [] name]
        exact hsuf
      refine parse_repo_arg_err _ _ hrr ?_
      rw [stripDotGit_no _ hg]
      exact matchPatterns_slashHead name h
    | true =>
      have hsfx : ".git".data <:+ name := by rwa [List.isSuffixOf_iff_suffix] at hsuf
      obtain ⟨u, rfl⟩ := hsfx
      have hu : ∀ c ∈ u, c ≠ '/' := fun c hc => h c (List.mem_append_left _ hc)
      refine parse_repo_arg_err _ _ hrr ?_
      rw [show ('/' :: (u ++ ".git".data) : List Char) = ('/' :: u) ++ ".git".data from rfl,
        stripDotGit_yes]
      exact matchPatterns_slashHead u hu

theorem parse_err_trailSlash (owner : List Char) (h : ∀ c ∈ owner, c ≠ '/') :
    isInvalidRef (parse_repo_arg (String.mk (owner ++ ['/']))) = true := by
  have hrr : rstripSlashes (owner ++ ['/']) = owner := by
    rw [rstrip_slash]
    exact rstrip_noslash owner h
  exact parse_repo_arg_err _ _ hrr (matchPatterns_stripDotGit_noslash owner h)

theorem parse_err_doubleSlash (a t : List Char) (ha : a ≠ [])
    (ha' : ∀ c ∈ a, c ≠ '/') (ht' : ∀ c ∈ t, c ≠ '/') :
    isInvalidRef (parse_repo_arg (String.mk (a ++ '/' :: '/' :: t))) = true := by
  by_cases ht : t = []
  · subst ht
    have hrr : rstripSlashes (a ++ '/' :: '/' :: ([] : List Char)) = a := by
      rw [show a ++ '/' :: '/' :: ([] : List Char) = (a ++ ['/']) ++ ['/'] by simp,
        rstrip_slash, rstrip_slash]
      exact rstrip_noslash a ha'
    exact parse_repo_arg_err _ _ hrr (matchPatterns_stripDotGit_noslash a ha')
  · have hrr : rstripSlashes (a ++ '/' :: '/' :: t) = a ++ '/' :: '/' :: t := by
      rw [show a ++ '/' :: '/' :: t = (a ++ ['/', '/']) ++ t by simp]
      exact rstrip_keep _ t ht ht'
    cases hsuf : ".git".data.isSuffixOf t with
    | false =>
      have hg : ".git".data.isSuffixOf (a ++ '/' :: '/' :: t) = false := by
        rw [dotgit_suffix_append a ('/' :: t),
          show ('/' :: t : List Char) = [] ++ '/' :: t from rfl,
          dotgit_suffix_append [] t]
        exact hsuf
      refine parse_repo_arg_err _ _ hrr ?_
      rw [stripDotGit_no _ hg]
      exact matchPatterns_doubleSlash a t ha ha' ht'
    | true =>
      have hsfx : ".git".data <:+ t := by rwa [List.isSuffixOf_iff_suffix] at hsuf
      obtain ⟨u, rfl⟩ := hsfx
      have hu : ∀ c ∈ u, c ≠ '/' := fun c hc => ht' c (List.mem_append_left _ hc)
      refine parse_repo_arg_err _ _ hrr ?_
      rw [show a ++ '/' :: '/' :: (u ++ ".git".data) =
        (a ++ '/' :: '/' :: u) ++ ".git".data by simp, stripDotGit_yes]
      exact matchPatterns_doubleSlash a u ha ha' hu

theorem parse_ok_all_forms (owner name : List Char) (ho : owner ≠ []) (hn : name ≠ [])
    (ho' : ∀ c ∈ owner, c ≠ '/') (hn' : ∀ c ∈ name, c ≠ '/')
    (hgit : ".git".data.isSuffixOf name = false) :
    ∀ pre ∈ ([[], "github.com/".data, "https://github.com/".data,
      "http://github.com/".data] : List (List Char)),
    ∀ suf ∈ ([[], ['/'], ".git".data, ".git".data ++ ['/']] : List (List Char)),
      parse_repo_arg (String.mk ((pre ++ owner ++ '/' :: name) ++ suf)) =
        .ok (String.mk owner, String.mk name) := by
  intro pre hpre suf hsuf
  obtain ⟨hr, hg⟩ := base_facts pre owner name hn hn' hgit
  have hm : matchPatterns (pre ++ owner ++ '/' :: name) =
      some (String.mk owner, String.mk name) := by
    fin_cases hpre
    · simpa using matchPatterns_bare owner name ho hn ho' hn'
    · exact matchPatterns_domain owner name ho hn ho' hn'
    · exact matchPatterns_https owner name ho hn ho' hn'
    · exact matchPatterns_http owner name ho hn ho' hn'
  obtain ⟨h1, h2, h3, h4⟩ := parse_repo_arg_suffix_forms (pre ++ owner ++ '/' :: name) _ hr hg hm
  fin_cases hsuf
  · simpa using h1
  · exact h2
  · exact h3
  · simpa using h4

/-- C8 (amended): for every non-empty slash-free owner and name where the name
does not itself end in `.git`, parse_repo_arg returns the identical
(owner, name) pair for the bare, domain-prefixed, https and http forms, each
optionally carrying a trailing slash, a `.git` suffix, or both; and every
input from the malformed families — no slash at all, a third path segment
after owner/name (first segment not `github.com`), a leading slash (empty
owner segment), a lone trailing slash (empty name segment), or a double slash
(empty middle segment) — fails with an InvalidReference (ValueError). -/
theorem c8_reference_parser_amended :
    (∀ owner name : List Char, owner ≠ [] → name ≠ [] →
      (∀ c ∈ owner, c ≠ '/') → (∀ c ∈ name, c ≠ '/') →
      ".git".data.isSuffixOf name = false →
      ∀ pre ∈ ([[], "github.com/".data, "https://github.com/".data,
        "http://github.com/".data] : List (List Char)),
      ∀ suf ∈ ([[], ['/'], ".git".data, ".git".data ++ ['/']] : List (List Char)),
        parse_repo_arg (String.mk ((pre ++ owner ++ '/' :: name) ++ suf)) =
          .ok (String.mk owner, String.mk name)) ∧
    (∀ m : List Char, (∀ c ∈ m, c ≠ '/') →
      isInvalidRef (parse_repo_arg (String.mk m)) = true) ∧
    (∀ a b t : List Char, a ≠ [] → b ≠ [] → t ≠ [] →
      (∀ c ∈ a, c ≠ '/') → (∀ c ∈ b, c ≠ '/') → (∀ c ∈ t, c ≠ '/') →
      a ≠ "github.com".data →
      isInvalidRef (parse_repo_arg (String.mk (a ++ '/' :: (b ++ '/' :: t)))) = true) ∧
    (∀ name : List Char, (∀ c ∈ name, c ≠ '/') →
      isInvalidRef (parse_repo_arg (String.mk ('/' :: name))) = true) ∧
    (∀ owner : List Char, (∀ c ∈ owner, c ≠ '/') →
      isInvalidRef (parse_repo_arg (String.mk (owner ++ ['/']))) = true) ∧
    (∀ a t : List Char, a ≠ [] → (∀ c ∈ a, c ≠ '/') → (∀ c ∈ t, c ≠ '/') →
      isInvalidRef (parse_repo_arg (String.mk (a ++ '/' :: '/' :: t))) = true) :=
  ⟨parse_ok_all_forms, parse_err_noslash, parse_err_threeSegs, parse_err_slashHead,
    parse_err_trailSlash, parse_err_doubleSlash⟩

/-- C8 counterexample: the unamended claim fails for names that end in `.git`.
With owner "owner" and name ".git" (non-empty, slash-free) the bare form is
rejected; with name "x.git" the bare form returns ("o", "x"), not
("o", "x.git") — the `.git`-suffix variant "o/x.git.git" is what returns
("o", "x.git"). -/
theorem c8_reference_parser_counterexample :
    isInvalidRef (parse_repo_arg "owner/.git") = true ∧
    parse_repo_arg "o/x.git" = .ok ("o", "x") ∧
    parse_repo_arg "o/x.git.git" = .ok ("o", "x.git") := by
  decide

/-- Witness for C8: the amended theorem instantiated at owner "o", name "r",
the domain-prefixed form with a trailing slash, and at the slash-free
malformed input "norepo". -/
theorem c8_reference_parser_amended_witness :
    parse_repo_arg (String.mk (("github.com/".data ++ "o".data ++ '/' :: "r".data) ++ ['/'])) =
      .ok (String.mk "o".data, String.mk "r".data) ∧
    isInvalidRef (parse_repo_arg (String.mk "norepo".data)) = true :=
  ⟨c8_reference_parser_amended.1 "o".data "r".data (by decide) (by decide) (by decide)
      (by decide) (by decide) "github.com/".data (by decide) ['/'] (by decide),
    c8_reference_parser_amended.2.1 "norepo".data (by decide)⟩

theorem stripPrefixL_head_ne (c d : Char) (p l : List Char) (h : c ≠ d) :
    stripPrefixL (c :: p) (d :: l) = none := by
  simp [stripPrefixL, h]

theorem lazySegGit_no (y : List Char) (hy : y ≠ []) (hg : ".git".data.isSuffixOf y = false) :
    lazySegGit y = some y := by
  unfold lazySegGit
  rw [if_neg hy, if_neg (by simp [hg])]

theorem lazySegGit_yes (y : List Char) (hy : y ≠ []) :
    lazySegGit (y ++ ".git".data) = some y := by
  unfold lazySegGit
  rw [if_neg (by simp)]
  rw [if_pos ⟨isSuffixOf_append_self ".git".data y, by
    have := List.length_pos.mpr hy
    simp only [List.length_append]
    rw [show (".git".data).length = 4 from rfl]
    omega⟩]
  rw [show (y ++ ".git".data).length - 4 = y.length by simp]
  rw [List.take_left]

theorem matchOwnerRepoGit_pair (x y n : List Char) (hx : x ≠ [])
    (hx' : ∀ c ∈ x, c ≠ '/') (hy' : ∀ c ∈ y, c ≠ '/') (hl : lazySegGit y = some n) :
    matchOwnerRepoGit (x ++ '/' :: y) = some (String.mk x, String.mk n) := by
  unfold matchOwnerRepoGit
  rw [splitOnSlash_append x y hx', splitOnSlash_noslash y hy']
  simp [hx, hl]

theorem https_head_g (l : List Char) :
    stripPrefixL "https://github.com/".data ('g' :: l) = none := by
  rw [show "https://github.com/".data = 'h' :: "ttps://github.com/".data from rfl]
  exact stripPrefixL_head_ne 'h' 'g' _ _ (by decide)

theorem http_head_g (l : List Char) :
    stripPrefixL "http://github.com/".data ('g' :: l) = none := by
  rw [show "http://github.com/".data = 'h' :: "ttp://github.com/".data from rfl]
  exact stripPrefixL_head_ne 'h' 'g' _ _ (by decide)

theorem parse_github_url_ssh_ok (owner name n : List Char) (ho : owner ≠ [])
    (ho' : ∀ c ∈ owner, c ≠ '/') (hn' : ∀ c ∈ name, c ≠ '/')
    (hl : lazySegGit name = some n) :
    parse_github_url (String.mk ("git@github.com:".data ++ (owner ++ '/' :: name))) =
      .ok (String.mk owner, String.mk n) := by
  simp only [parse_github_url]
  rw [show ("git@github.com:".data ++ (owner ++ '/' :: name) : List Char) =
    'g' :: ("it@github.com:".data ++ (owner ++ '/' :: name)) from rfl]
  simp only [
    show stripPrefixL "git@github.com:".data
        ('g' :: ("it@github.com:".data ++ (owner ++ '/' :: name))) =
      some (owner ++ '/' :: name) from stripPrefixL_self _ _,
    matchOwnerRepoGit_pair owner name n ho ho' hn' hl]
  simp [stripPrefixL]

theorem parse_github_url_reject_head (c : Char) (rest : List Char)
    (h1 : c ≠ 'h') (h2 : c ≠ 'g') :
    isInvalidRef (parse_github_url (String.mk (c :: rest))) = true := by
  simp only [parse_github_url]
  have h1' : 'h' ≠ c := Ne.symm h1
  have h2' : 'g' ≠ c := Ne.symm h2
  simp [stripPrefixL, h1', h2', isInvalidRef]

/-- C9 (amended): the stored-remote-URL parser accepts the SSH-style form only
for the literal user `git` and host `github.com`: for every non-empty
slash-free owner and name where the name does not itself end in `.git` (and
does not end in a newline), `git@github.com:owner/name` and
`git@github.com:owner/name.git` both return (owner, name); any URL whose
first character is neither `h` nor `g` — in particular one for any other
user — is rejected with a ValueError. -/
theorem c9_stored_url_ssh_amended :
    (∀ owner name : List Char, owner ≠ [] → name ≠ [] →
      (∀ c ∈ owner, c ≠ '/') → (∀ c ∈ name, c ≠ '/') →
      ".git".data.isSuffixOf name = false → name.getLast? ≠ some '\n' →
      parse_github_url (String.mk ("git@github.com:".data ++ (owner ++ '/' :: name))) =
        .ok (String.mk owner, String.mk name) ∧
      parse_github_url
          (String.mk ("git@github.com:".data ++ (owner ++ '/' :: (name ++ ".git".data)))) =
        .ok (String.mk owner, String.mk name)) ∧
    (∀ (c : Char) (rest : List Char), c ≠ 'h' → c ≠ 'g' →
      isInvalidRef (parse_github_url (String.mk (c :: rest))) = true) := by
  refine ⟨?_, parse_github_url_reject_head⟩
  intro owner name ho hn ho' hn' hgit _hnl
  have hdg : ∀ c ∈ ".git".data, c ≠ '/' := by decide
  have hn'' : ∀ c ∈ name ++ ".git".data, c ≠ '/' := by
    intro c hc
    rcases List.mem_append.1 hc with h | h
    · exact hn' c h
    · exact hdg c h
  exact ⟨parse_github_url_ssh_ok owner name name ho ho' hn' (lazySegGit_no name hn hgit),
    parse_github_url_ssh_ok owner (name ++ ".git".data) name ho ho' hn''
      (lazySegGit_yes name hn)⟩

/-- C9 counterexample: the SSH form is not accepted for arbitrary user and
host — `alice@example.com:o/r` raises ValueError; and for a name that itself
ends in `.git`, the unsuffixed form returns the name with `.git` stripped:
`git@github.com:o/x.git` yields ("o", "x"), not ("o", "x.git"). -/
theorem c9_stored_url_counterexample :
    isInvalidRef (parse_github_url "alice@example.com:o/r") = true ∧
    parse_github_url "git@github.com:o/x.git" = .ok ("o", "x") := by
  decide

/-- Witness for C9: the amended theorem instantiated at owner "o", name "r",
and at the rejected first character 'a'. -/
theorem c9_stored_url_ssh_amended_witness :
    parse_github_url (String.mk ("git@github.com:".data ++ ("o".data ++ '/' :: "r".data))) =
      .ok (String.mk "o".data, String.mk "r".data) ∧
    isInvalidRef (parse_github_url (String.mk ('a' :: "lice@example.com:o/r".data))) = true :=
  ⟨(c9_stored_url_ssh_amended.1 "o".data "r".data (by decide) (by decide) (by decide)
      (by decide) (by decide) (by decide)).1,
    c9_stored_url_ssh_amended.2 'a' "lice@example.com:o/r".data (by decide) (by decide)⟩

end GitPull
